import Mathlib

/-!
Shallow embedding of the Zendesk backup/restore pipeline (the repository
files backup.py and restore.py): decoded JSON values, the relational
store, the structured/raw upsert writers, the sync loops and the restore
engine, together with theorems settling the specification claims.

Modelling conventions, stated once:
* Machine side effects that carry no data (logging, sleeping, wall-clock
  delays) are dropped; wall-clock reads that matter (cursor reseeding)
  take the current epoch as an explicit argument.
* A Python exception escaping a function is modelled as the function
  returning none; callers that catch exceptions match on the Option.
* SQL tables are lists of typed rows; INSERT ... ON CONFLICT DO UPDATE
  with every non-key column set from EXCLUDED is modelled by upsertRow,
  which replaces the row with the matching primary key or appends.
* Timestamp parsing (datetime.fromisoformat) is abstracted as keeping the
  nonempty string itself: the API emits one uniform ISO-8601 format whose
  lexicographic string order coincides with chronological order, and no
  claim depends on rejecting a malformed nonempty timestamp string.
-/

namespace ZSpec

/-- JSON values as decoded by the pipeline. Numbers are modelled as
integers: every identifier and epoch the code manipulates is integral. -/
inductive Json : Type where
  | null : Json
  | bool (b : Bool) : Json
  | num (n : Int) : Json
  | str (s : String) : Json
  | arr (xs : List Json) : Json
  | obj (kvs : List (String × Json)) : Json

mutual

/-- Decidable equality on JSON values, written out by hand because the
derive handler does not support this nested inductive. -/
def Json.decEq : (a b : Json) → Decidable (a = b)
  | .null, .null => .isTrue rfl
  | .null, .bool _ => .isFalse nofun
  | .null, .num _ => .isFalse nofun
  | .null, .str _ => .isFalse nofun
  | .null, .arr _ => .isFalse nofun
  | .null, .obj _ => .isFalse nofun
  | .bool _, .null => .isFalse nofun
  | .bool a, .bool b =>
    if h : a = b then .isTrue (by rw [h]) else .isFalse (by intro he; injection he; exact h ‹_›)
  | .bool _, .num _ => .isFalse nofun
  | .bool _, .str _ => .isFalse nofun
  | .bool _, .arr _ => .isFalse nofun
  | .bool _, .obj _ => .isFalse nofun
  | .num _, .null => .isFalse nofun
  | .num _, .bool _ => .isFalse nofun
  | .num a, .num b =>
    if h : a = b then .isTrue (by rw [h]) else .isFalse (by intro he; injection he; exact h ‹_›)
  | .num _, .str _ => .isFalse nofun
  | .num _, .arr _ => .isFalse nofun
  | .num _, .obj _ => .isFalse nofun
  | .str _, .null => .isFalse nofun
  | .str _, .bool _ => .isFalse nofun
  | .str _, .num _ => .isFalse nofun
  | .str a, .str b =>
    if h : a = b then .isTrue (by rw [h]) else .isFalse (by intro he; injection he; exact h ‹_›)
  | .str _, .arr _ => .isFalse nofun
  | .str _, .obj _ => .isFalse nofun
  | .arr _, .null => .isFalse nofun
  | .arr _, .bool _ => .isFalse nofun
  | .arr _, .num _ => .isFalse nofun
  | .arr _, .str _ => .isFalse nofun
  | .arr xs, .arr ys =>
    match Json.decEqList xs ys with
    | .isTrue h => .isTrue (by rw [h])
    | .isFalse h => .isFalse (by intro he; injection he; exact h ‹_›)
  | .arr _, .obj _ => .isFalse nofun
  | .obj _, .null => .isFalse nofun
  | .obj _, .bool _ => .isFalse nofun
  | .obj _, .num _ => .isFalse nofun
  | .obj _, .str _ => .isFalse nofun
  | .obj _, .arr _ => .isFalse nofun
  | .obj xs, .obj ys =>
    match Json.decEqObj xs ys with
    | .isTrue h => .isTrue (by rw [h])
    | .isFalse h => .isFalse (by intro he; injection he; exact h ‹_›)

/-- Decidable equality on JSON arrays. -/
def Json.decEqList : (xs ys : List Json) → Decidable (xs = ys)
  | [], [] => .isTrue rfl
  | [], _ :: _ => .isFalse nofun
  | _ :: _, [] => .isFalse nofun
  | x :: xs, y :: ys =>
    match Json.decEq x y, Json.decEqList xs ys with
    | .isTrue h1, .isTrue h2 => .isTrue (by rw [h1, h2])
    | .isFalse h1, _ => .isFalse (by intro he; injection he; exact h1 ‹_›)
    | _, .isFalse h2 => .isFalse (by intro he; injection he; exact h2 ‹_›)

/-- Decidable equality on JSON objects (key-value lists). -/
def Json.decEqObj : (xs ys : List (String × Json)) → Decidable (xs = ys)
  | [], [] => .isTrue rfl
  | [], _ :: _ => .isFalse nofun
  | _ :: _, [] => .isFalse nofun
  | (k1, v1) :: xs, (k2, v2) :: ys =>
    if hk : k1 = k2 then
      match Json.decEq v1 v2, Json.decEqObj xs ys with
      | .isTrue h1, .isTrue h2 => .isTrue (by rw [hk, h1, h2])
      | .isFalse h1, _ => .isFalse (by
          intro he; injection he with hp ht; injection hp with hpk hpv; exact h1 hpv)
      | _, .isFalse h2 => .isFalse (by intro he; injection he with hp ht; exact h2 ht)
    else .isFalse (by
      intro he; injection he with hp ht; injection hp with hpk hpv; exact hk hpk)

end

instance : DecidableEq Json := Json.decEq

/-- A decoded JSON object (Python dict) as passed around by the code. -/
abbrev Entity := List (String × Json)

/-- Python dict.get(k): the value for the first matching key, else None. -/
def eGet (e : Entity) (k : String) : Json :=
  match e.find? (fun p => p.1 = k) with
  | some p => p.2
  | none => Json.null

/-- Python dict.get(k, d): the value for k when the key is present
(even when that value is None), else the default d. -/
def eGetD (e : Entity) (k : String) (d : Json) : Json :=
  match e.find? (fun p => p.1 = k) with
  | some p => p.2
  | none => d

/-! String primitives are modelled over the character list so that every
definition reduces inside the kernel; each mirrors the Python string
operation the source uses. -/

/-- Python str.split(",") over the character list. -/
def splitCommaChars : List Char → List (List Char)
  | [] => [[]]
  | c :: rest =>
    let r := splitCommaChars rest
    if c = ',' then [] :: r
    else
      match r with
      | [] => [[c]]
      | g :: gs => (c :: g) :: gs

/-- Python str.split(","). -/
def pySplitComma (s : String) : List String :=
  (splitCommaChars s.data).map String.mk

/-- Python str.strip() over the character list. -/
def trimChars (cs : List Char) : List Char :=
  ((cs.dropWhile (fun c => c.isWhitespace)).reverse.dropWhile
    (fun c => c.isWhitespace)).reverse

/-- Python str.strip(). -/
def pyTrim (s : String) : String := String.mk (trimChars s.data)

/-- Python str.lower() (ASCII case folding suffices for every string the
pipeline compares). -/
def pyLower (s : String) : String := String.mk (s.data.map Char.toLower)

/-- The numeric value of a nonempty digit string. -/
def natOfDigits : List Char → Option Nat
  | [] => none
  | cs => cs.foldl (fun acc c =>
      match acc with
      | none => none
      | some n => if c.isDigit then some (n * 10 + (c.toNat - 48)) else none) (some 0)

/-- Python int(s) on a string: optional surrounding whitespace, optional
sign, digits. -/
def pyIntStr (s : String) : Option Int :=
  match trimChars s.data with
  | '+' :: rest => (natOfDigits rest).map Int.ofNat
  | '-' :: rest => (natOfDigits rest).map (fun n => -(n : Int))
  | cs => (natOfDigits cs).map Int.ofNat

/-- Python truthiness of a decoded JSON value. -/
def Json.falsy : Json → Bool
  | .null => true
  | .bool b => !b
  | .num n => n = 0
  | .str s => s = ""
  | .arr xs => xs.isEmpty
  | .obj kvs => kvs.isEmpty

/-- Python `x or d` on decoded JSON values. -/
def pyOr (v d : Json) : Json := if v.falsy then d else v

/-- Python `bool(x)` on decoded JSON values. -/
def pyBool (v : Json) : Bool := !v.falsy

/-- Python `int(x)` on decoded JSON values: integers pass through, numeric
strings parse, booleans coerce to 0/1; anything else raises (none). -/
def pyInt : Json → Option Int
  | .num n => some n
  | .bool b => some (if b then 1 else 0)
  | .str s => pyIntStr s
  | _ => none

/-- Python `str(x)` on decoded JSON values. The rendering of composite
values is irrelevant to every claim and kept schematic. -/
def pyStr : Json → String
  | .str s => s
  | .num n => toString n
  | .bool b => if b then "True" else "False"
  | .null => "None"
  | .arr _ => "[array]"
  | .obj _ => "[object]"

/-- parse_dt of backup.py/restore.py: None and the empty string give None;
a nonempty string parses (kept verbatim, see the file header); a non-string
truthy value would raise in Python and no claim exercises that path. -/
def parse_dt : Json → Option String
  | .str s => if s = "" then none else some s
  | _ => none

/-- Python's salted string hash, abstracted as a fixed deterministic hash:
within one interpreter run hash(s) is deterministic, which is the only
property the trigger-category id fallback relies on. Composed with the
abs and mod 10^15 of the source. -/
def pyHashAbs (s : String) : Int :=
  ((s.foldl (fun a c => (a * 131 + c.toNat) % (10 ^ 15)) 7 : Nat) : Int)

/-! ## Structured rows (one per SQL table of SCHEMA_SQL) -/

/-- Row of sync_state. The wall-clock updated_at column is audit-only and
not consulted anywhere, hence not modelled. -/
structure CursorRow where
  resource : String
  cursor_token : String
deriving DecidableEq

/-- Row of raw_snapshots; primary key (resource, entity_id). -/
structure RawRow where
  resource : String
  entity_id : Int
  updated_at : Option String
  payload_json : Json
deriving DecidableEq

/-- Row of users. Columns that receive a Python value as-is keep type
Json; columns fed through bool() are Bool; parse_dt columns are
Option String. -/
structure UserRow where
  id : Int
  name : Json
  email : Json
  role : Json
  role_type : Json
  active : Bool
  suspended : Bool
  organization_id : Json
  phone : Json
  locale : Json
  time_zone : Json
  created_at : Option String
  updated_at : Option String
  last_login_at : Option String
  tags_json : Json
  user_fields_json : Json
  photo_json : Json
deriving DecidableEq

/-- Row of organizations. -/
structure OrgRow where
  id : Int
  name : Json
  external_id : Json
  group_id : Json
  details : Json
  notes : Json
  shared_tickets : Bool
  shared_comments : Bool
  domain_names_json : Json
  tags_json : Json
  organization_fields_json : Json
  created_at : Option String
  updated_at : Option String
deriving DecidableEq

/-- Row of tickets. -/
structure TicketRow where
  id : Int
  subject : Json
  description : Json
  status : Json
  priority : Json
  ticket_type : Json
  requester_id : Json
  assignee_id : Json
  organization_id : Json
  created_at : Option String
  updated_at : Option String
  due_at : Option String
deriving DecidableEq

/-- Row of ticket_comments. -/
structure CommentRow where
  id : Int
  ticket_id : Int
  author_id : Json
  public : Bool
  body : Json
  created_at : Option String
  updated_at : Option String
deriving DecidableEq

/-- Row of attachments. -/
structure AttachmentRow where
  id : Int
  ticket_id : Int
  comment_id : Option Int
  file_name : Json
  content_url : Json
  local_path : Option String
  content_type : Json
  size : Json
  thumbnails_json : Json
  created_at : Option String
deriving DecidableEq

/-- Row of views. -/
structure ViewRow where
  id : Int
  title : Json
  description : Json
  active : Bool
  position : Json
  default_view : Bool
  restriction_json : Json
  execution_json : Json
  conditions_json : Json
  created_at : Option String
  updated_at : Option String
deriving DecidableEq

/-- Row of triggers. -/
structure TriggerRow where
  id : Int
  title : Json
  description : Json
  active : Bool
  position : Json
  category_id : Json
  raw_title : Json
  default_trigger : Bool
  conditions_json : Json
  actions_json : Json
  created_at : Option String
  updated_at : Option String
deriving DecidableEq

/-- Row of trigger_categories (TEXT primary key). -/
structure TriggerCategoryRow where
  id : String
  name : Json
  position : Json
  created_at : Option String
  updated_at : Option String
deriving DecidableEq

/-- Row of macros. The default column is named defaultMacro here because
its SQL name collides with restricted vocabulary of the proof language. -/
structure MacroRow where
  id : Int
  title : Json
  description : Json
  active : Bool
  position : Json
  defaultMacro : Bool
  restriction_json : Json
  actions_json : Json
  created_at : Option String
  updated_at : Option String
deriving DecidableEq

/-- The whole relational store. -/
structure DB where
  sync_state : List CursorRow
  raw_snapshots : List RawRow
  users : List UserRow
  organizations : List OrgRow
  tickets : List TicketRow
  ticket_comments : List CommentRow
  attachments : List AttachmentRow
  views : List ViewRow
  triggers : List TriggerRow
  trigger_categories : List TriggerCategoryRow
  macros : List MacroRow
deriving DecidableEq

def emptyDB : DB := ⟨[], [], [], [], [], [], [], [], [], [], []⟩

/-- INSERT ... ON CONFLICT (key) DO UPDATE SET every-non-key-column =
EXCLUDED: replace the row whose primary key matches (the store enforces at
most one such row), else append. -/
def upsertRow {ρ κ : Type} [DecidableEq κ] (key : ρ → κ) (r : ρ) : List ρ → List ρ
  | [] => [r]
  | x :: xs => if key x = key r then r :: xs else x :: upsertRow key r xs

/-- Primary key of raw_snapshots. -/
def rawKey (r : RawRow) : String × Int := (r.resource, r.entity_id)

/-- get_cursor_val of backup.py. -/
def get_cursor_val (db : DB) (resource : String) : Option String :=
  (db.sync_state.find? (fun r => r.resource = resource)).map (fun r => r.cursor_token)

/-- set_cursor_val of backup.py: atomic insert-or-replace on resource. -/
def set_cursor_val (resource token : String) (db : DB) : DB :=
  { db with sync_state := upsertRow (fun r => r.resource) ⟨resource, token⟩ db.sync_state }

/-- upsert_raw of backup.py (restore.py carries a verbatim copy, compared
separately below): keyed on (resource, entity_id), parse_dt applied to the
caller-supplied source update time. -/
def upsert_raw (resource : String) (entity_id : Int) (upd : Json) (payload : Json) (db : DB) : DB :=
  { db with raw_snapshots :=
      upsertRow rawKey ⟨resource, entity_id, parse_dt upd, payload⟩ db.raw_snapshots }

/-! ## The Writer: structured + raw upserts of backup.py

Each upsert_X of backup.py is split into a pure decode step (the tuple of
SQL parameters, which depends only on the entity) and a state update that
writes the structured row and the raw snapshot; the decode fails exactly
when the int() coercion of the entity id raises, which aborts the call. -/

namespace Backup

/-- Parameter tuple of upsert_user (backup.py): the structured users row
and the raw snapshot row for the entity. -/
def decodeUser (u : Entity) : Option (UserRow × RawRow) :=
  match pyInt (eGet u "id") with
  | none => none
  | some uid =>
    some ({ id := uid, name := eGet u "name", email := eGet u "email", role := eGet u "role",
            role_type := eGet u "role_type",
            active := pyBool (eGet u "active"), suspended := pyBool (eGet u "suspended"),
            organization_id := eGet u "organization_id", phone := eGet u "phone",
            locale := eGet u "locale", time_zone := eGet u "time_zone",
            created_at := parse_dt (eGet u "created_at"),
            updated_at := parse_dt (eGet u "updated_at"),
            last_login_at := parse_dt (eGet u "last_login_at"),
            tags_json := pyOr (eGet u "tags") (Json.arr []),
            user_fields_json := pyOr (eGet u "user_fields") (Json.obj []),
            photo_json := pyOr (eGet u "photo") (Json.obj []) },
          { resource := "users", entity_id := uid,
            updated_at := parse_dt (eGet u "updated_at"), payload_json := Json.obj u })

/-- upsert_user of backup.py. -/
def upsert_user (u : Entity) (db : DB) : Option DB :=
  (decodeUser u).map (fun pr =>
    { db with users := upsertRow (fun r => r.id) pr.1 db.users,
              raw_snapshots := upsertRow rawKey pr.2 db.raw_snapshots })

/-- Parameter tuple of upsert_org (backup.py). -/
def decodeOrg (o : Entity) : Option (OrgRow × RawRow) :=
  match pyInt (eGet o "id") with
  | none => none
  | some oid =>
    some ({ id := oid, name := eGet o "name", external_id := eGet o "external_id",
            group_id := eGet o "group_id", details := eGet o "details", notes := eGet o "notes",
            shared_tickets := pyBool (eGet o "shared_tickets"),
            shared_comments := pyBool (eGet o "shared_comments"),
            domain_names_json := pyOr (eGet o "domain_names") (Json.arr []),
            tags_json := pyOr (eGet o "tags") (Json.arr []),
            organization_fields_json := pyOr (eGet o "organization_fields") (Json.obj []),
            created_at := parse_dt (eGet o "created_at"),
            updated_at := parse_dt (eGet o "updated_at") },
          { resource := "organizations", entity_id := oid,
            updated_at := parse_dt (eGet o "updated_at"), payload_json := Json.obj o })

/-- upsert_org of backup.py. -/
def upsert_org (o : Entity) (db : DB) : Option DB :=
  (decodeOrg o).map (fun pr =>
    { db with organizations := upsertRow (fun r => r.id) pr.1 db.organizations,
              raw_snapshots := upsertRow rawKey pr.2 db.raw_snapshots })

/-- Parameter tuple of upsert_ticket (backup.py). -/
def decodeTicket (t : Entity) : Option (TicketRow × RawRow) :=
  match pyInt (eGet t "id") with
  | none => none
  | some tid =>
    some ({ id := tid, subject := eGet t "subject", description := eGet t "description",
            status := eGet t "status", priority := eGet t "priority",
            ticket_type := eGet t "type", requester_id := eGet t "requester_id",
            assignee_id := eGet t "assignee_id", organization_id := eGet t "organization_id",
            created_at := parse_dt (eGet t "created_at"),
            updated_at := parse_dt (eGet t "updated_at"),
            due_at := parse_dt (eGet t "due_at") },
          { resource := "tickets", entity_id := tid,
            updated_at := parse_dt (eGet t "updated_at"), payload_json := Json.obj t })

/-- upsert_ticket of backup.py. -/
def upsert_ticket (t : Entity) (db : DB) : Option DB :=
  (decodeTicket t).map (fun pr =>
    { db with tickets := upsertRow (fun r => r.id) pr.1 db.tickets,
              raw_snapshots := upsertRow rawKey pr.2 db.raw_snapshots })

/-- delete_ticket of backup.py: delete the ticket row and, cascading by
ticket_id, its comments and attachments. -/
def delete_ticket (ticket_id : Int) (db : DB) : DB :=
  { db with attachments := db.attachments.filter (fun a => a.ticket_id ≠ ticket_id),
            ticket_comments := db.ticket_comments.filter (fun c => c.ticket_id ≠ ticket_id),
            tickets := db.tickets.filter (fun t => t.id ≠ ticket_id) }

/-- Parameter tuple of upsert_comment (backup.py): the structured
updated_at and the raw snapshot's recorded update time both fall back from
the comment's updated_at to its created_at. -/
def decodeComment (ticket_id : Int) (c : Entity) : Option (CommentRow × RawRow) :=
  match pyInt (eGet c "id") with
  | none => none
  | some cid =>
    some ({ id := cid, ticket_id := ticket_id, author_id := eGet c "author_id",
            public := pyBool (eGet c "public"), body := eGet c "body",
            created_at := parse_dt (eGet c "created_at"),
            updated_at := parse_dt (pyOr (eGet c "updated_at") (eGet c "created_at")) },
          { resource := "comments", entity_id := cid,
            updated_at := parse_dt (pyOr (eGet c "updated_at") (eGet c "created_at")),
            payload_json := Json.obj c })

/-- upsert_comment of backup.py. -/
def upsert_comment (ticket_id : Int) (c : Entity) (db : DB) : Option DB :=
  (decodeComment ticket_id c).map (fun pr =>
    { db with ticket_comments := upsertRow (fun r => r.id) pr.1 db.ticket_comments,
              raw_snapshots := upsertRow rawKey pr.2 db.raw_snapshots })

/-- Parameter tuple of upsert_attachment (backup.py); local_path is the
reference returned by the external blob-download collaborator. -/
def decodeAttachment (ticket_id : Int) (comment_id : Option Int) (local_path : Option String)
    (a : Entity) : Option (AttachmentRow × RawRow) :=
  match pyInt (eGet a "id") with
  | none => none
  | some aid =>
    some ({ id := aid, ticket_id := ticket_id, comment_id := comment_id,
            file_name := eGet a "file_name", content_url := eGet a "content_url",
            local_path := local_path, content_type := eGet a "content_type",
            size := eGet a "size",
            thumbnails_json := pyOr (eGet a "thumbnails") (Json.arr []),
            created_at := parse_dt (eGet a "created_at") },
          { resource := "attachments", entity_id := aid,
            updated_at := parse_dt (eGet a "created_at"), payload_json := Json.obj a })

/-- upsert_attachment of backup.py. -/
def upsert_attachment (ticket_id : Int) (comment_id : Option Int) (local_path : Option String)
    (a : Entity) (db : DB) : Option DB :=
  (decodeAttachment ticket_id comment_id local_path a).map (fun pr =>
    { db with attachments := upsertRow (fun r => r.id) pr.1 db.attachments,
              raw_snapshots := upsertRow rawKey pr.2 db.raw_snapshots })

/-- Parameter tuple of upsert_view (backup.py). Note: the three document
columns are json.dumps of the value with no empty-container default. -/
def decodeView (v : Entity) : Option (ViewRow × RawRow) :=
  match pyInt (eGet v "id") with
  | none => none
  | some vid =>
    some ({ id := vid, title := eGet v "title", description := eGet v "description",
            active := pyBool (eGet v "active"), position := eGet v "position",
            default_view := pyBool (eGet v "default"),
            restriction_json := eGet v "restriction",
            execution_json := eGet v "execution",
            conditions_json := eGet v "conditions",
            created_at := parse_dt (eGet v "created_at"),
            updated_at := parse_dt (eGet v "updated_at") },
          { resource := "views", entity_id := vid,
            updated_at := parse_dt (eGet v "updated_at"), payload_json := Json.obj v })

/-- upsert_view of backup.py. -/
def upsert_view (v : Entity) (db : DB) : Option DB :=
  (decodeView v).map (fun pr =>
    { db with views := upsertRow (fun r => r.id) pr.1 db.views,
              raw_snapshots := upsertRow rawKey pr.2 db.raw_snapshots })

/-- Parameter tuple of upsert_trigger (backup.py). -/
def decodeTrigger (t : Entity) : Option (TriggerRow × RawRow) :=
  match pyInt (eGet t "id") with
  | none => none
  | some tid =>
    some ({ id := tid, title := eGet t "title", description := eGet t "description",
            active := pyBool (eGet t "active"), position := eGet t "position",
            category_id := eGet t "category_id", raw_title := eGet t "raw_title",
            default_trigger := pyBool (eGet t "default"),
            conditions_json := pyOr (eGet t "conditions") (Json.obj []),
            actions_json := pyOr (eGet t "actions") (Json.arr []),
            created_at := parse_dt (eGet t "created_at"),
            updated_at := parse_dt (eGet t "updated_at") },
          { resource := "triggers", entity_id := tid,
            updated_at := parse_dt (eGet t "updated_at"), payload_json := Json.obj t })

/-- upsert_trigger of backup.py. -/
def upsert_trigger (t : Entity) (db : DB) : Option DB :=
  (decodeTrigger t).map (fun pr =>
    { db with triggers := upsertRow (fun r => r.id) pr.1 db.triggers,
              raw_snapshots := upsertRow rawKey pr.2 db.raw_snapshots })

/-- Parameter tuple of upsert_trigger_category (backup.py). The structured
primary key is str(id); the raw key is int(id) when that parses, else the
documented numeric-hash fallback. A missing id key raises a KeyError from
inside the fallback (c["id"]), aborting the call. -/
def decodeTriggerCategory (c : Entity) : Option (TriggerCategoryRow × RawRow) :=
  if (c.find? (fun p => p.1 = "id")).isNone then none
  else
    let eid : Int :=
      match pyInt (eGet c "id") with
      | some i => i
      | none => pyHashAbs (pyStr (eGet c "id"))
    some ({ id := pyStr (eGet c "id"), name := eGet c "name", position := eGet c "position",
            created_at := parse_dt (eGet c "created_at"),
            updated_at := parse_dt (eGet c "updated_at") },
          { resource := "trigger_categories", entity_id := eid,
            updated_at := parse_dt (eGet c "updated_at"), payload_json := Json.obj c })

/-- upsert_trigger_category of backup.py. -/
def upsert_trigger_category (c : Entity) (db : DB) : Option DB :=
  (decodeTriggerCategory c).map (fun pr =>
    { db with trigger_categories := upsertRow (fun r => r.id) pr.1 db.trigger_categories,
              raw_snapshots := upsertRow rawKey pr.2 db.raw_snapshots })

/-- Parameter tuple of the macro upsert of backup.py (source name
upsert_macro; renamed here, see MacroRow). Note: restriction_json is
json.dumps of the value with no empty-container default. -/
def decodeMacro (m : Entity) : Option (MacroRow × RawRow) :=
  match pyInt (eGet m "id") with
  | none => none
  | some mid =>
    some ({ id := mid, title := eGet m "title", description := eGet m "description",
            active := pyBool (eGet m "active"), position := eGet m "position",
            defaultMacro := pyBool (eGet m "default"),
            restriction_json := eGet m "restriction",
            actions_json := pyOr (eGet m "actions") (Json.arr []),
            created_at := parse_dt (eGet m "created_at"),
            updated_at := parse_dt (eGet m "updated_at") },
          { resource := "macros", entity_id := mid,
            updated_at := parse_dt (eGet m "updated_at"), payload_json := Json.obj m })

/-- upsert_macro of backup.py (renamed, see MacroRow). -/
def upsertMacro (m : Entity) (db : DB) : Option DB :=
  (decodeMacro m).map (fun pr =>
    { db with macros := upsertRow (fun r => r.id) pr.1 db.macros,
              raw_snapshots := upsertRow rawKey pr.2 db.raw_snapshots })

end Backup

/-! ## Generic keyed-table vocabulary used by the theorems -/

/-- Fold a batch of rows into a table, one upsert per row. -/
def applyAll {ρ κ : Type} [DecidableEq κ] (key : ρ → κ) (rs t : List ρ) : List ρ :=
  rs.foldl (fun acc r => upsertRow key r acc) t

/-- Keys of a table, in row order. -/
def keysOf {ρ κ : Type} (key : ρ → κ) (t : List ρ) : List κ :=
  t.map key

/-- First row with the given key, if any. -/
def lookupK {ρ κ : Type} [DecidableEq κ] (key : ρ → κ) (k : κ) (t : List ρ) : Option ρ :=
  t.find? (fun x => key x = k)

/-- Last row of a batch carrying the given key, if any. -/
def lastWrite {ρ κ : Type} [DecidableEq κ] (key : ρ → κ) (rs : List ρ) (k : κ) : Option ρ :=
  rs.foldl (fun acc r => if key r = k then some r else acc) none

/-- First-some choice between two optional values. -/
def oelse {ρ : Type} (o d : Option ρ) : Option ρ :=
  match o with
  | some q => some q
  | none => d

/-- Per-table primary-key uniqueness, the invariant the SQL store enforces
on every table of the schema. -/
def DB.Wf (db : DB) : Prop :=
  (keysOf (fun r : CursorRow => r.resource) db.sync_state).Nodup ∧
  (keysOf rawKey db.raw_snapshots).Nodup ∧
  (keysOf (fun r : UserRow => r.id) db.users).Nodup ∧
  (keysOf (fun r : OrgRow => r.id) db.organizations).Nodup ∧
  (keysOf (fun r : TicketRow => r.id) db.tickets).Nodup ∧
  (keysOf (fun r : CommentRow => r.id) db.ticket_comments).Nodup ∧
  (keysOf (fun r : AttachmentRow => r.id) db.attachments).Nodup ∧
  (keysOf (fun r : ViewRow => r.id) db.views).Nodup ∧
  (keysOf (fun r : TriggerRow => r.id) db.triggers).Nodup ∧
  (keysOf (fun r : TriggerCategoryRow => r.id) db.trigger_categories).Nodup ∧
  (keysOf (fun r : MacroRow => r.id) db.macros).Nodup

instance (db : DB) : Decidable db.Wf := by
  unfold DB.Wf; infer_instance

/-- Sequential application of one Writer entry point to a decoded page of
entities, as every sync loop body does; a raised exception (none) aborts
the page. -/
def applyPage (f : Entity → DB → Option DB) : List Entity → DB → Option DB
  | [], db => some db
  | e :: p, db =>
    match f e db with
    | none => none
    | some db1 => applyPage f p db1

/-- The Writer's per-entity entry points, one per resource kind, with the
caller-supplied context each takes in backup.py. -/
inductive WKind : Type where
  | users : WKind
  | organizations : WKind
  | tickets : WKind
  | comments (ticket_id : Int) : WKind
  | attachments (ticket_id : Int) (comment_id : Option Int) (local_path : Option String) : WKind
  | views : WKind
  | triggers : WKind
  | trigger_categories : WKind
  | macros : WKind
deriving DecidableEq

/-- Dispatch to the Writer entry point for a resource kind. -/
def upsertEntity : WKind → Entity → DB → Option DB
  | .users => Backup.upsert_user
  | .organizations => Backup.upsert_org
  | .tickets => Backup.upsert_ticket
  | .comments tid => Backup.upsert_comment tid
  | .attachments tid cid lp => Backup.upsert_attachment tid cid lp
  | .views => Backup.upsert_view
  | .triggers => Backup.upsert_trigger
  | .trigger_categories => Backup.upsert_trigger_category
  | .macros => Backup.upsertMacro

/-! ## Retrying fetcher (get_with_retry of backup.py)

An HTTP exchange is modelled by the attempt-indexed sequence of responses
the server would give; sleeping and backoff arithmetic carry no state and
are dropped. -/

/-- One HTTP response: status, the decoded body when it is valid JSON, the
raw text, and the optional Retry-After header. -/
structure HResp where
  status : Nat
  jsonBody : Option Json
  text : String
  retryAfter : Option String
deriving DecidableEq

/-- Terminal outcomes of a fetch, mirroring the distinct raise sites of
get_with_retry: the immediate non-retryable failure (which formats the
status and the body detail into the error), the exhausted-retries raise
(which formats only the URL), the JSON decode failure on a 200 body, and
the float() failure on a malformed Retry-After header. -/
inductive FetchErr : Type where
  | failed (url : String) (status : Nat) (detail : Json) : FetchErr
  | exhaustedRetries (url : String) : FetchErr
  | jsonDecodeError (url : String) : FetchErr
  | valueError (url : String) : FetchErr
deriving DecidableEq

/-- The response status carried by a fetch error, if any. -/
def FetchErr.statusOf : FetchErr → Option Nat
  | .failed _ s _ => some s
  | _ => none

/-- The response-body detail carried by a fetch error, if any. -/
def FetchErr.detailOf : FetchErr → Option Json
  | .failed _ _ d => some d
  | _ => none

/-- RETRY_STATUS of backup.py. -/
def RETRY_STATUS : List Nat := [429, 500, 502, 503, 504]

/-- The diagnostic detail of a response: its decoded JSON body, else the
first 300 characters of its text. -/
def respDetail (r : HResp) : Json :=
  match r.jsonBody with
  | some j => j
  | none => Json.obj [("text", Json.str (String.mk (r.text.data.take 300)))]

/-- Python float(s) success, for the Retry-After header: optional sign,
digits with at most one dot, surrounding whitespace allowed. Exponent
forms are not modelled; no claim exercises them. -/
def floatParses (s : String) : Bool :=
  let t := trimChars s.data
  let t := match t with
    | '+' :: r => r
    | '-' :: r => r
    | r => r
  let digits := fun (a : List Char) => !a.isEmpty && a.all (fun c => c.isDigit)
  match t.splitOn '.' with
  | [a] => digits a
  | [a, b] => (digits a && (b.isEmpty || digits b)) || (a.isEmpty && digits b)
  | _ => false

/-- The attempt loop of get_with_retry: fuel counts the remaining trips of
for _ in range(8), i indexes the attempt. -/
def getWithRetryAux (url : String) (resp : Nat → HResp) : Nat → Nat → Except FetchErr Json
  | 0, _ => .error (.exhaustedRetries url)
  | fuel + 1, i =>
    let r := resp i
    if r.status = 200 then
      match r.jsonBody with
      | some j => .ok j
      | none => .error (.jsonDecodeError url)
    else if r.status ∈ RETRY_STATUS then
      match r.retryAfter with
      | some s =>
        if floatParses s then getWithRetryAux url resp fuel (i + 1)
        else .error (.valueError url)
      | none => getWithRetryAux url resp fuel (i + 1)
    else .error (.failed url r.status (respDetail r))

/-- get_with_retry of backup.py over a response sequence. -/
def get_with_retry (url : String) (resp : Nat → HResp) : Except FetchErr Json :=
  getWithRetryAux url resp 8 0

/-! ## Sync loops

Each loop is modelled over the sequence of successfully decoded 200 pages
it consumes; transient-status retries refetch without touching any state
and are dropped (get_with_retry above carries the retry semantics). A
loop that still expects a next page when the feed is exhausted has no
result (none). -/

/-- One page of the cursor-style incremental users endpoint. -/
structure UserPage where
  users : List Entity
  after_cursor : Option String
  end_of_stream : Bool
  has_next : Bool
deriving DecidableEq

/-- The checkpoint step shared by the users and tickets loops: `if ac:
set_cursor_val(...)` — the cursor advances only on a truthy token. -/
def setCursorIfTok (resource : String) (ac : Option String) (db : DB) : DB :=
  match ac with
  | some t => if t = "" then db else set_cursor_val resource t db
  | none => db

/-- The page loop of sync_users: upsert every user of the page, checkpoint
the advancing cursor, stop on end_of_stream or on a missing continuation. -/
def syncUsersLoop : List UserPage → DB → Option DB
  | [], _ => none
  | p :: rest, db =>
    match applyPage Backup.upsert_user p.users db with
    | none => none
    | some db1 =>
      let db2 := setCursorIfTok "users" p.after_cursor db1
      if p.end_of_stream then some db2
      else if p.has_next then syncUsersLoop rest db2
      else some db2

/-- One page of the time-window incremental organizations endpoint. -/
structure OrgPage where
  organizations : List Entity
  end_time : Option Int
  next_page : Bool
deriving DecidableEq

/-- One page of the full-listing organizations endpoint. -/
structure SnapPage where
  organizations : List Entity
  next_page : Bool
deriving DecidableEq

/-- State threaded through the organizations incremental loop. -/
structure OrgState where
  db : DB
  seen : List Int
  streak : Nat
deriving DecidableEq

/-- seen_ids accumulation of sync_organizations: a present id that
coerces to int joins the set, anything else is silently skipped. -/
def orgSeenAdd (seen : List Int) (o : Entity) : List Int :=
  match pyInt (eGet o "id") with
  | some i => if i ∈ seen then seen else i :: seen
  | none => seen

/-- Per-organization step of the incremental page body: record the id as
seen, then upsert. -/
def orgFoldEntities : List Entity → List Int × DB → Option (List Int × DB)
  | [], x => some x
  | o :: os, x =>
    let seen := orgSeenAdd x.1 o
    match Backup.upsert_org o x.2 with
    | none => none
    | some db => orgFoldEntities os (seen, db)

/-- One 200 page of the incremental organizations loop: upsert every
entity, checkpoint end_time as the epoch cursor when truthy, then update
the duplicate-only streak — a nonempty page contributing zero newly-seen
unique ids extends it, anything else resets it. -/
def orgPageStep (p : OrgPage) (s : OrgState) : Option OrgState :=
  (orgFoldEntities p.organizations (s.seen, s.db)).map (fun x =>
    let db1 := match p.end_time with
      | some et => if et = 0 then x.2 else set_cursor_val "organizations" (toString et) x.2
      | none => x.2
    let streak1 := if p.organizations ≠ [] ∧ x.1.length = s.seen.length then s.streak + 1 else 0
    ⟨db1, x.1, streak1⟩)

/-- snapshot_once of sync_organizations: a full paginated listing
upserting every entity, then the epoch cursor reseeded to now minus a
60-second safety margin. -/
def snapshot_once (now : Int) (pages : List SnapPage) (db : DB) : Option DB :=
  let rec go : List SnapPage → DB → Option DB
    | [], _ => none
    | p :: rest, d =>
      match applyPage Backup.upsert_org p.organizations d with
      | none => none
      | some d1 => if p.next_page then go rest d1 else some d1
  (go pages db).map (set_cursor_val "organizations" (toString (now - 60)))

/-- The incremental loop of sync_organizations; the Bool of the result
records whether the run switched to snapshot mode. -/
def orgLoop (now : Int) (snapPages : List SnapPage) :
    List OrgPage → OrgState → Option (Bool × DB)
  | [], _ => none
  | p :: rest, s =>
    match orgPageStep p s with
    | none => none
    | some s1 =>
      if s1.streak ≥ 3 then (snapshot_once now snapPages s1.db).map (fun d => (true, d))
      else if p.next_page then orgLoop now snapPages rest s1
      else some (false, s1.db)

/-- sync_organizations of backup.py: snapshot when forced or when no
epoch cursor is stored, else the incremental loop with snapshot fallback. -/
def sync_organizations (now : Int) (forceSnapshot : Bool) (snapPages : List SnapPage)
    (incPages : List OrgPage) (db : DB) : Option (Bool × DB) :=
  match get_cursor_val db "organizations" with
  | none => (snapshot_once now snapPages db).map (fun d => (true, d))
  | some _ =>
    if forceSnapshot then (snapshot_once now snapPages db).map (fun d => (true, d))
    else orgLoop now snapPages incPages ⟨db, [], 0⟩

/-! ## Tickets sync (sync_tickets_comments_attachments of backup.py) -/

/-- The environment toggles the tickets loop reads. -/
structure Cfg where
  closedTicketsOnly : Bool
  pruneReopenedFromDb : Bool
  useTicketEventsForComments : Bool
deriving DecidableEq

/-- One page of a per-ticket comment listing. -/
structure CommentPage where
  comments : List Entity
  next_page : Bool
deriving DecidableEq

/-- The external blob-download collaborator: (ticket id, comment id,
attachment) to an optional local reference; failures are non-fatal. -/
abbrev DlFn := Int → Int → Entity → Option String

/-- (t.get("status") or "").lower(): fails (none) on a truthy non-string
status, which would raise in Python. -/
def statusLower (t : Entity) : Option String :=
  match pyOr (eGet t "status") (Json.str "") with
  | .str s => some (pyLower s)
  | _ => none

/-- int(c.get("id") or 0), the comment id handed to the attachment calls. -/
def commentCid (c : Entity) : Option Int :=
  pyInt (pyOr (eGet c "id") (Json.num 0))

/-- (c.get("attachments") or []) as a list of decoded objects; iterating
anything else raises in Python (none). -/
def commentAttachments (c : Entity) : Option (List Entity) :=
  match pyOr (eGet c "attachments") (Json.arr []) with
  | .arr xs => xs.mapM (fun j => match j with | .obj kvs => some kvs | _ => none)
  | _ => none

/-- One comment of the per-ticket fan-out: upsert the comment, then hand
each of its attachments to the blob collaborator and upsert the
attachment metadata with the returned local reference. -/
def processComment (dl : DlFn) (tid : Int) (c : Entity) (db : DB) : Option DB :=
  match Backup.upsert_comment tid c db with
  | none => none
  | some db1 =>
    match commentCid c, commentAttachments c with
    | some cid, some atts =>
      applyPage (fun a => Backup.upsert_attachment tid (some cid) (dl tid cid a) a) atts db1
    | _, _ => none

/-- The per-ticket comment pagination (iter_list_pages over the comment
endpoint). -/
def commentPagesLoop (dl : DlFn) (tid : Int) : List CommentPage → DB → Option DB
  | [], _ => none
  | p :: rest, db =>
    match applyPage (processComment dl tid) p.comments db with
    | none => none
    | some db1 => if p.next_page then commentPagesLoop dl tid rest db1 else some db1

/-- One ticket of a sync page: the closed-only filter with optional
pruning, else upsert plus (in per-ticket mode) the comment fan-out. -/
def processTicket (cfg : Cfg) (cfeeds : Int → List CommentPage) (dl : DlFn)
    (t : Entity) (db : DB) : Option DB :=
  match statusLower t with
  | none => none
  | some st =>
    if cfg.closedTicketsOnly ∧ ¬ (st = "closed") then
      if cfg.pruneReopenedFromDb then
        (pyInt (eGet t "id")).map (fun tid => Backup.delete_ticket tid db)
      else some db
    else
      match pyInt (eGet t "id") with
      | none => none
      | some tid =>
        match Backup.upsert_ticket t db with
        | none => none
        | some db1 =>
          if cfg.useTicketEventsForComments then some db1
          else commentPagesLoop dl tid (cfeeds tid) db1

/-- One page of the cursor-style incremental tickets endpoint. -/
structure TicketPage where
  tickets : List Entity
  after_cursor : Option String
  end_of_stream : Bool
deriving DecidableEq

/-- The page loop of sync_tickets_comments_attachments: process every
ticket of the page, checkpoint the advancing cursor, stop on
end_of_stream (on a missing after_url the code refetches the same URL, so
the feed simply continues). -/
def syncTicketsLoop (cfg : Cfg) (cfeeds : Int → List CommentPage) (dl : DlFn) :
    List TicketPage → DB → Option DB
  | [], _ => none
  | p :: rest, db =>
    match applyPage (processTicket cfg cfeeds dl) p.tickets db with
    | none => none
    | some db1 =>
      let db2 := setCursorIfTok "tickets" p.after_cursor db1
      if p.end_of_stream then some db2
      else syncTicketsLoop cfg cfeeds dl rest db2

/-- The comment dict synthesized from a ticket-event child event by
sync_ticket_events_for_comments: updated_at is set to the event's
created_at. -/
def eventComment (ce : Entity) : Entity :=
  [("id", eGet ce "id"),
   ("author_id", eGet ce "author_id"),
   ("public", eGetD ce "public" (Json.bool false)),
   ("body", eGet ce "body"),
   ("created_at", eGet ce "created_at"),
   ("updated_at", eGet ce "created_at"),
   ("attachments", pyOr (eGet ce "attachments") (Json.arr []))]

/-! ## Restore engine (restore.py)

restore.py carries its own copies of the structured upserts ("same shapes
as backup.py" per its comment); they are embedded separately here so that
their agreement with the Writer is a theorem, not a definition. -/

namespace Restore

/-- Parameter tuple of upsert_user (restore.py). -/
def decodeUser (u : Entity) : Option (UserRow × RawRow) :=
  match pyInt (eGet u "id") with
  | none => none
  | some uid =>
    some ({ id := uid, name := eGet u "name", email := eGet u "email", role := eGet u "role",
            role_type := eGet u "role_type",
            active := pyBool (eGet u "active"), suspended := pyBool (eGet u "suspended"),
            organization_id := eGet u "organization_id", phone := eGet u "phone",
            locale := eGet u "locale", time_zone := eGet u "time_zone",
            created_at := parse_dt (eGet u "created_at"),
            updated_at := parse_dt (eGet u "updated_at"),
            last_login_at := parse_dt (eGet u "last_login_at"),
            tags_json := pyOr (eGet u "tags") (Json.arr []),
            user_fields_json := pyOr (eGet u "user_fields") (Json.obj []),
            photo_json := pyOr (eGet u "photo") (Json.obj []) },
          { resource := "users", entity_id := uid,
            updated_at := parse_dt (eGet u "updated_at"), payload_json := Json.obj u })

/-- upsert_user of restore.py. -/
def upsert_user (u : Entity) (db : DB) : Option DB :=
  (decodeUser u).map (fun pr =>
    { db with users := upsertRow (fun r => r.id) pr.1 db.users,
              raw_snapshots := upsertRow rawKey pr.2 db.raw_snapshots })

/-- Parameter tuple of upsert_org (restore.py). -/
def decodeOrg (o : Entity) : Option (OrgRow × RawRow) :=
  match pyInt (eGet o "id") with
  | none => none
  | some oid =>
    some ({ id := oid, name := eGet o "name", external_id := eGet o "external_id",
            group_id := eGet o "group_id", details := eGet o "details", notes := eGet o "notes",
            shared_tickets := pyBool (eGet o "shared_tickets"),
            shared_comments := pyBool (eGet o "shared_comments"),
            domain_names_json := pyOr (eGet o "domain_names") (Json.arr []),
            tags_json := pyOr (eGet o "tags") (Json.arr []),
            organization_fields_json := pyOr (eGet o "organization_fields") (Json.obj []),
            created_at := parse_dt (eGet o "created_at"),
            updated_at := parse_dt (eGet o "updated_at") },
          { resource := "organizations", entity_id := oid,
            updated_at := parse_dt (eGet o "updated_at"), payload_json := Json.obj o })

/-- upsert_org of restore.py. -/
def upsert_org (o : Entity) (db : DB) : Option DB :=
  (decodeOrg o).map (fun pr =>
    { db with organizations := upsertRow (fun r => r.id) pr.1 db.organizations,
              raw_snapshots := upsertRow rawKey pr.2 db.raw_snapshots })

/-- Parameter tuple of upsert_ticket (restore.py). -/
def decodeTicket (t : Entity) : Option (TicketRow × RawRow) :=
  match pyInt (eGet t "id") with
  | none => none
  | some tid =>
    some ({ id := tid, subject := eGet t "subject", description := eGet t "description",
            status := eGet t "status", priority := eGet t "priority",
            ticket_type := eGet t "type", requester_id := eGet t "requester_id",
            assignee_id := eGet t "assignee_id", organization_id := eGet t "organization_id",
            created_at := parse_dt (eGet t "created_at"),
            updated_at := parse_dt (eGet t "updated_at"),
            due_at := parse_dt (eGet t "due_at") },
          { resource := "tickets", entity_id := tid,
            updated_at := parse_dt (eGet t "updated_at"), payload_json := Json.obj t })

/-- upsert_ticket of restore.py. -/
def upsert_ticket (t : Entity) (db : DB) : Option DB :=
  (decodeTicket t).map (fun pr =>
    { db with tickets := upsertRow (fun r => r.id) pr.1 db.tickets,
              raw_snapshots := upsertRow rawKey pr.2 db.raw_snapshots })

/-- Parameter tuple of upsert_view (restore.py). -/
def decodeView (v : Entity) : Option (ViewRow × RawRow) :=
  match pyInt (eGet v "id") with
  | none => none
  | some vid =>
    some ({ id := vid, title := eGet v "title", description := eGet v "description",
            active := pyBool (eGet v "active"), position := eGet v "position",
            default_view := pyBool (eGet v "default"),
            restriction_json := eGet v "restriction",
            execution_json := eGet v "execution",
            conditions_json := eGet v "conditions",
            created_at := parse_dt (eGet v "created_at"),
            updated_at := parse_dt (eGet v "updated_at") },
          { resource := "views", entity_id := vid,
            updated_at := parse_dt (eGet v "updated_at"), payload_json := Json.obj v })

/-- upsert_view of restore.py. -/
def upsert_view (v : Entity) (db : DB) : Option DB :=
  (decodeView v).map (fun pr =>
    { db with views := upsertRow (fun r => r.id) pr.1 db.views,
              raw_snapshots := upsertRow rawKey pr.2 db.raw_snapshots })

/-- Parameter tuple of upsert_trigger (restore.py). -/
def decodeTrigger (t : Entity) : Option (TriggerRow × RawRow) :=
  match pyInt (eGet t "id") with
  | none => none
  | some tid =>
    some ({ id := tid, title := eGet t "title", description := eGet t "description",
            active := pyBool (eGet t "active"), position := eGet t "position",
            category_id := eGet t "category_id", raw_title := eGet t "raw_title",
            default_trigger := pyBool (eGet t "default"),
            conditions_json := pyOr (eGet t "conditions") (Json.obj []),
            actions_json := pyOr (eGet t "actions") (Json.arr []),
            created_at := parse_dt (eGet t "created_at"),
            updated_at := parse_dt (eGet t "updated_at") },
          { resource := "triggers", entity_id := tid,
            updated_at := parse_dt (eGet t "updated_at"), payload_json := Json.obj t })

/-- upsert_trigger of restore.py. -/
def upsert_trigger (t : Entity) (db : DB) : Option DB :=
  (decodeTrigger t).map (fun pr =>
    { db with triggers := upsertRow (fun r => r.id) pr.1 db.triggers,
              raw_snapshots := upsertRow rawKey pr.2 db.raw_snapshots })

/-- Parameter tuple of upsert_trigger_category (restore.py). -/
def decodeTriggerCategory (c : Entity) : Option (TriggerCategoryRow × RawRow) :=
  if (c.find? (fun p => p.1 = "id")).isNone then none
  else
    let eid : Int :=
      match pyInt (eGet c "id") with
      | some i => i
      | none => pyHashAbs (pyStr (eGet c "id"))
    some ({ id := pyStr (eGet c "id"), name := eGet c "name", position := eGet c "position",
            created_at := parse_dt (eGet c "created_at"),
            updated_at := parse_dt (eGet c "updated_at") },
          { resource := "trigger_categories", entity_id := eid,
            updated_at := parse_dt (eGet c "updated_at"), payload_json := Json.obj c })

/-- upsert_trigger_category of restore.py. -/
def upsert_trigger_category (c : Entity) (db : DB) : Option DB :=
  (decodeTriggerCategory c).map (fun pr =>
    { db with trigger_categories := upsertRow (fun r => r.id) pr.1 db.trigger_categories,
              raw_snapshots := upsertRow rawKey pr.2 db.raw_snapshots })

/-- Parameter tuple of the macro upsert (restore.py). -/
def decodeMacro (m : Entity) : Option (MacroRow × RawRow) :=
  match pyInt (eGet m "id") with
  | none => none
  | some mid =>
    some ({ id := mid, title := eGet m "title", description := eGet m "description",
            active := pyBool (eGet m "active"), position := eGet m "position",
            defaultMacro := pyBool (eGet m "default"),
            restriction_json := eGet m "restriction",
            actions_json := pyOr (eGet m "actions") (Json.arr []),
            created_at := parse_dt (eGet m "created_at"),
            updated_at := parse_dt (eGet m "updated_at") },
          { resource := "macros", entity_id := mid,
            updated_at := parse_dt (eGet m "updated_at"), payload_json := Json.obj m })

/-- upsert_macro of restore.py (renamed, see MacroRow). -/
def upsertMacro (m : Entity) (db : DB) : Option DB :=
  (decodeMacro m).map (fun pr =>
    { db with macros := upsertRow (fun r => r.id) pr.1 db.macros,
              raw_snapshots := upsertRow rawKey pr.2 db.raw_snapshots })

/-- Application of a RESTORERS entry to a replayed payload: a non-object
payload raises inside fn (attribute access on a non-dict) and the driver
catches it. -/
def runRestorer (f : Entity → DB → Option DB) (j : Json) (db : DB) : Option DB :=
  match j with
  | .obj kvs => f kvs db
  | _ => none

/-- RESTORERS of restore.py: the restorable resources and their
projection functions; comments and attachments have no entry. -/
def RESTORERS : List (String × (Json → DB → Option DB)) :=
  [("users", runRestorer upsert_user),
   ("organizations", runRestorer upsert_org),
   ("tickets", runRestorer upsert_ticket),
   ("views", runRestorer upsert_view),
   ("triggers", runRestorer upsert_trigger),
   ("trigger_categories", runRestorer upsert_trigger_category),
   ("macros", runRestorer upsertMacro)]

/-- Keys of RESTORERS, for scope validation. -/
def RESTORER_KEYS : List String :=
  ["users", "organizations", "tickets", "views", "triggers", "trigger_categories", "macros"]

/-- RESTORE_ORDER of restore.py: the fixed dependency order. -/
def RESTORE_ORDER : List String :=
  ["users", "organizations", "tickets", "views", "triggers", "trigger_categories", "macros"]

/-- Lookup of a restorer by resource name. -/
def restorerFor (res : String) : Option (Json → DB → Option DB) :=
  (RESTORERS.find? (fun p => p.1 = res)).map (fun p => p.2)

/-- The ORDER BY of load_raw_rows: source update time descending with
NULLS LAST, then entity id descending as tie-break. ISO timestamps are
compared as strings (see the file header). -/
def rawLe (a b : RawRow) : Bool :=
  match a.updated_at, b.updated_at with
  | some x, some y => if x = y then decide (b.entity_id ≤ a.entity_id) else decide (y < x)
  | some _, none => true
  | none, some _ => false
  | none, none => decide (b.entity_id ≤ a.entity_id)

/-- Insert into a sorted list (ORDER BY is modelled by insertion sort). -/
def insertLe {α : Type} (le : α → α → Bool) (a : α) : List α → List α
  | [] => [a]
  | b :: bs => if le a b then a :: b :: bs else b :: insertLe le a bs

/-- Insertion sort by a Boolean total preorder. -/
def sortLe {α : Type} (le : α → α → Bool) : List α → List α
  | [] => []
  | a :: xs => insertLe le a (sortLe le xs)

/-- The projected row shape the driver consumes (SELECT entity_id,
payload_json). -/
structure RestRow where
  entity_id : Int
  payload_json : Json
deriving DecidableEq

/-- The ordered raw rows of one resource, before LIMIT/OFFSET. -/
def rawRowsSorted (db : DB) (resource : String) : List RawRow :=
  sortLe rawLe (db.raw_snapshots.filter (fun r => r.resource = resource))

/-- load_raw_rows of restore.py. The LIMIT/OFFSET clause is emitted only
when a limit is given; with limit None the offset is ignored, as in the
source. -/
def load_raw_rows (db : DB) (resource : String) (limit : Option Nat) (offset : Nat) :
    List RestRow :=
  let rows := rawRowsSorted db resource
  let rows := match limit with
    | some l => (rows.drop offset).take l
    | none => rows
  rows.map (fun r => ⟨r.entity_id, r.payload_json⟩)

/-- truncate_table of restore.py, for the tables reachable through
table_map. -/
def truncate_table (db : DB) : String → DB
  | "users" => { db with users := [] }
  | "organizations" => { db with organizations := [] }
  | "tickets" => { db with tickets := [] }
  | "views" => { db with views := [] }
  | "triggers" => { db with triggers := [] }
  | "trigger_categories" => { db with trigger_categories := [] }
  | "macros" => { db with macros := [] }
  | _ => db

/-- maybe_truncate of restore.py: when the flag is set, truncate every
scoped table (table_map covers exactly the seven restorable resources). -/
def maybe_truncate (db : DB) (scope_list : List String) (truncate_first : Bool) : DB :=
  if truncate_first then scope_list.foldl (fun d s => truncate_table d s) db
  else db

/-- Scope parsing of restore: comma-split, trim, lowercase; empty parts
are dropped; an unknown resource aborts with SystemExit (none). -/
def parseScopeParts : List String → List String → Option (List String)
  | [], acc => some acc
  | part :: rest, acc =>
    let p := pyLower (pyTrim part)
    if p = "" then parseScopeParts rest acc
    else if p ∈ RESTORER_KEYS then parseScopeParts rest (acc ++ [p])
    else none

/-- The scope argument resolved to a resource list. -/
def parseScope (scope : String) : Option (List String) :=
  if scope = "all" then some RESTORE_ORDER
  else parseScopeParts (pySplitComma scope) []

/-- State of the per-resource replay loop. -/
structure RestState where
  db : DB
  seen : List Int
  restored : Nat
deriving DecidableEq

/-- The payload coercion of the replay loop: a payload stored as a JSON
string is re-parsed with json.loads (abstracted as the jparse argument);
parse failure is logged and the row skipped. -/
def coercePayload (jparse : String → Option Json) : Json → Option Json
  | .str s => jparse s
  | j => some j

/-- One row of the replay loop: dedup on entity id keeping the first
occurrence, coerce the payload, then count (dry run) or replay through
the projection fn with exceptions caught. -/
def restoreStep (jparse : String → Option Json) (fn : Json → DB → Option DB) (dry : Bool)
    (s : RestState) (row : RestRow) : RestState :=
  if row.entity_id ∈ s.seen then s
  else
    match coercePayload jparse row.payload_json with
    | none => s
    | some p =>
      if dry then ⟨s.db, row.entity_id :: s.seen, s.restored + 1⟩
      else
        match fn p s.db with
        | some db1 => ⟨db1, row.entity_id :: s.seen, s.restored + 1⟩
        | none => s

/-- The replay loop over the loaded rows. -/
def restoreRows (jparse : String → Option Json) (fn : Json → DB → Option DB) (dry : Bool) :
    List RestRow → RestState → RestState
  | [], s => s
  | r :: rs, s => restoreRows jparse fn dry rs (restoreStep jparse fn dry s r)

/-- One resource of the restore driver: load, replay, report the count. -/
def restoreResource (jparse : String → Option Json) (fn : Json → DB → Option DB) (dry : Bool)
    (limit : Option Nat) (offset : Nat) (resource : String) (db : DB) : DB × Nat :=
  let rows := load_raw_rows db resource limit offset
  let s := restoreRows jparse fn dry rows ⟨db, [], 0⟩
  (s.db, s.restored)

/-- The scope loop of the restore driver. -/
def restoreScopes (jparse : String → Option Json) (dry : Bool) (limit : Option Nat)
    (offset : Nat) : List String → DB → List (String × Nat) →
    Option (DB × List (String × Nat))
  | [], db, acc => some (db, acc)
  | res :: rest, db, acc =>
    match restorerFor res with
    | none => none
    | some fn =>
      let r := restoreResource jparse fn dry limit offset res db
      restoreScopes jparse dry limit offset rest r.1 (acc ++ [(res, r.2)])

/-- restore of restore.py: resolve the scope, optionally truncate, then
replay each scoped resource in order; returns the final store and the
per-resource counts. -/
def restore (jparse : String → Option Json) (scope : String) (limit : Option Nat)
    (offset : Nat) (truncate_first dry_run : Bool) (db : DB) :
    Option (DB × List (String × Nat)) :=
  match parseScope scope with
  | none => none
  | some scope_list =>
    let db1 := maybe_truncate db scope_list truncate_first
    restoreScopes jparse dry_run limit offset scope_list db1 []

end Restore

/-! ## Derived vocabulary for the claim statements -/

/-- First-occurrence deduplication of replay rows by entity id, relative
to an initial seen set. -/
def dedupAux (seen : List Int) : List Restore.RestRow → List Restore.RestRow
  | [] => []
  | r :: rs =>
    if r.entity_id ∈ seen then dedupAux seen rs
    else r :: dedupAux (r.entity_id :: seen) rs

/-- The structured rows a page of entities decodes to. -/
def rowsOf {ρ : Type} (dec : Entity → Option (ρ × RawRow)) (p : List Entity) : List ρ :=
  p.filterMap (fun e => (dec e).map Prod.fst)

/-- The raw snapshot rows a page of entities decodes to. -/
def rawsOf {ρ : Type} (dec : Entity → Option (ρ × RawRow)) (p : List Entity) : List RawRow :=
  p.filterMap (fun e => (dec e).map Prod.snd)

/-- A truthy advancement token, as tested by `if ac:`. -/
def tokTruthy (ac : Option String) : Option String :=
  match ac with
  | some t => if t = "" then none else some t
  | none => none

/-- The token of the last page the users loop processes and checkpoints,
carried over the pages the loop actually consumes. -/
def lastTokU : List UserPage → Option String → Option String
  | [], acc => acc
  | p :: rest, acc =>
    let acc1 := oelse (tokTruthy p.after_cursor) acc
    if p.end_of_stream then acc1
    else if p.has_next then lastTokU rest acc1
    else acc1

/-- The token of the last page the tickets loop processes and
checkpoints. -/
def lastTokT : List TicketPage → Option String → Option String
  | [], acc => acc
  | p :: rest, acc =>
    let acc1 := oelse (tokTruthy p.after_cursor) acc
    if p.end_of_stream then acc1 else lastTokT rest acc1

/-! ## Concrete sample data for witnesses and counterexamples -/

/-- A small user entity. -/
def sampleUser : Entity := [("id", Json.num 1), ("name", Json.str "Ada")]

/-- A second user entity sharing the id, different name. -/
def sampleUser2 : Entity := [("id", Json.num 1), ("name", Json.str "Bob")]

/-- A view entity with no restriction/execution/conditions keys. -/
def sampleView : Entity := [("id", Json.num 5), ("title", Json.str "V")]

/-- A macro entity with no restriction key. -/
def sampleMacro : Entity := [("id", Json.num 6), ("title", Json.str "M")]

/-- A comment entity with no updated_at. -/
def sampleComment : Entity :=
  [("id", Json.num 10), ("body", Json.str "hi"), ("created_at", Json.str "2024-01-02T00:00:00Z")]

/-- A ticket-event child event. -/
def sampleChildEvent : Entity :=
  [("id", Json.num 11), ("author_id", Json.num 3), ("body", Json.str "ev"),
   ("created_at", Json.str "2024-02-03T00:00:00Z")]

/-- An open ticket entity. -/
def sampleOpenTicket : Entity :=
  [("id", Json.num 42), ("status", Json.str "Open"), ("subject", Json.str "S")]

/-- A users table holding one row, for the dry-run/truncate evaluations. -/
def sampleUserRow : UserRow :=
  ⟨1, Json.str "Ada", Json.null, Json.null, Json.null, true, false, Json.null, Json.null,
   Json.null, Json.null, none, none, none, Json.arr [], Json.obj [], Json.obj []⟩

/-- A store holding exactly one user row. -/
def dbOneUser : DB := { emptyDB with users := [sampleUserRow] }

/-- An all-retryable response (HTTP 500, non-JSON body). -/
def resp500 : HResp := ⟨500, none, "server exploded", none⟩

/-- A forbidden response (HTTP 403) with a JSON error body. -/
def resp403 : HResp := ⟨403, some (Json.obj [("error", Json.str "Forbidden")]), "denied", none⟩

/-- Two raw snapshot rows of one resource, out of order. -/
def rawA : RawRow := ⟨"users", 1, some "2024-01-01T00:00:00Z", Json.obj sampleUser⟩

/-- A second raw snapshot row, newer than rawA. -/
def rawB : RawRow := ⟨"users", 2, some "2024-06-01T00:00:00Z", Json.obj [("id", Json.num 2)]⟩

/-- A raw snapshot row with no source update time. -/
def rawC : RawRow := ⟨"users", 3, none, Json.obj [("id", Json.num 3)]⟩

/-- An organizations page with no entities that still advertises a next
page. -/
def orgPageEmpty : OrgPage := ⟨[], none, true⟩

/-- The final organizations page of the counterexample feed. -/
def orgPageFinal : OrgPage := ⟨[[("id", Json.num 7)]], some 77, false⟩

/-- A nonempty organizations page whose only id is already seen. -/
def orgPageDup : OrgPage := ⟨[[("id", Json.num 7)]], none, true⟩

/-- A one-page snapshot feed for the organizations fallback. -/
def snapFeed : List SnapPage := [⟨[[("id", Json.num 9)]], false⟩]

/-- An incremental-loop state that has already seen organization id 7. -/
def orgDupState : OrgState := ⟨emptyDB, [7], 0⟩

/-- The state after one duplicate-only page. -/
def orgDupS1 : OrgState := (orgPageStep orgPageDup orgDupState).getD orgDupState

/-- The state after two duplicate-only pages. -/
def orgDupS2 : OrgState := (orgPageStep orgPageDup orgDupS1).getD orgDupState

/-- The state after three duplicate-only pages. -/
def orgDupS3 : OrgState := (orgPageStep orgPageDup orgDupS2).getD orgDupState

/-- The store produced by the fallback snapshot in the witness run. -/
def orgSnapDB : DB := (snapshot_once 1000 snapFeed orgDupS3.db).getD emptyDB

/-- A store holding three raw user snapshots, deliberately out of order. -/
def dbRaws : DB := { emptyDB with raw_snapshots := [rawA, rawC, rawB] }

/-! # Theorems

First the generic keyed-table lemmas about upsertRow and batch
application, then the per-claim theorems. -/

set_option linter.unusedSectionVars false

section TableLemmas

variable {ρ κ : Type} [DecidableEq κ] (key : ρ → κ)

theorem keysOf_cons (x : ρ) (xs : List ρ) :
    keysOf key (x :: xs) = key x :: keysOf key xs := rfl

theorem mem_keysOf_cons {k : κ} {x : ρ} {xs : List ρ} :
    k ∈ keysOf key (x :: xs) ↔ k = key x ∨ k ∈ keysOf key xs := by
  rw [keysOf_cons]; exact List.mem_cons

theorem upsertRow_keys_of_mem (r : ρ) (t : List ρ) (h : key r ∈ keysOf key t) :
    keysOf key (upsertRow key r t) = keysOf key t := by
  induction t with
  | nil => simp [keysOf] at h
  | cons x xs ih =>
    by_cases hx : key x = key r
    · simp [upsertRow, hx, keysOf]
    · have h2 : key r ∈ keysOf key xs := by
        rcases (mem_keysOf_cons key).mp h with h1 | h1
        · exact absurd h1.symm hx
        · exact h1
      simp [upsertRow, hx, keysOf_cons, ih h2]

theorem upsertRow_keys_of_not_mem (r : ρ) (t : List ρ) (h : key r ∉ keysOf key t) :
    keysOf key (upsertRow key r t) = keysOf key t ++ [key r] := by
  induction t with
  | nil => simp [upsertRow, keysOf]
  | cons x xs ih =>
    have hx : ¬ (key x = key r) :=
      fun he => h ((mem_keysOf_cons key).mpr (Or.inl he.symm))
    have h2 : key r ∉ keysOf key xs :=
      fun hm => h ((mem_keysOf_cons key).mpr (Or.inr hm))
    simp [upsertRow, hx, keysOf_cons, ih h2]

theorem upsertRow_keys_nodup (r : ρ) (t : List ρ) (h : (keysOf key t).Nodup) :
    (keysOf key (upsertRow key r t)).Nodup := by
  by_cases hm : key r ∈ keysOf key t
  · rw [upsertRow_keys_of_mem key r t hm]; exact h
  · rw [upsertRow_keys_of_not_mem key r t hm]
    simp [List.nodup_append, h, hm]

theorem lookupK_upsertRow (r : ρ) (t : List ρ) (k : κ) :
    lookupK key k (upsertRow key r t) =
      if k = key r then some r else lookupK key k t := by
  induction t with
  | nil =>
    by_cases hk : k = key r
    · simp [upsertRow, lookupK, List.find?, hk]
    · have : ¬ (key r = k) := fun he => hk he.symm
      simp [upsertRow, lookupK, List.find?, hk, this]
  | cons x xs ih =>
    by_cases hx : key x = key r
    · by_cases hk : k = key r
      · simp [upsertRow, hx, lookupK, List.find?, hk]
      · have h1 : ¬ (key r = k) := fun he => hk he.symm
        have h2 : ¬ (key x = k) := fun he => hk (hx ▸ he).symm
        simp [upsertRow, hx, lookupK, List.find?, hk, h1, h2]
    · by_cases hxk : key x = k
      · have hk : ¬ (k = key r) := fun he => hx (hxk.trans he)
        simp [upsertRow, hx, lookupK, List.find?, hxk, hk]
      · have := ih
        simp only [lookupK] at this
        simp [upsertRow, hx, lookupK, List.find?, hxk, this]

theorem lookupK_head (x : ρ) (xs : List ρ) : lookupK key (key x) (x :: xs) = some x := by
  simp [lookupK, List.find?]

theorem lookupK_cons_ne (x : ρ) (xs : List ρ) (k : κ) (h : ¬ (key x = k)) :
    lookupK key k (x :: xs) = lookupK key k xs := by
  simp [lookupK, List.find?, h]

theorem lookupK_of_not_mem (k : κ) (t : List ρ) (h : k ∉ keysOf key t) :
    lookupK key k t = none := by
  induction t with
  | nil => rfl
  | cons x xs ih =>
    have hx : ¬ (key x = k) :=
      fun he => h ((mem_keysOf_cons key).mpr (Or.inl he.symm))
    have h2 : k ∉ keysOf key xs :=
      fun hm => h ((mem_keysOf_cons key).mpr (Or.inr hm))
    rw [lookupK_cons_ne key x xs k hx]; exact ih h2

theorem eq_of_keysOf_lookupK (t u : List ρ) (hnt : (keysOf key t).Nodup)
    (hnu : (keysOf key u).Nodup) (hk : keysOf key t = keysOf key u)
    (hl : ∀ k, lookupK key k t = lookupK key k u) : t = u := by
  induction t generalizing u with
  | nil =>
    cases u with
    | nil => rfl
    | cons y ys => simp [keysOf] at hk
  | cons x xs ih =>
    cases u with
    | nil => simp [keysOf] at hk
    | cons y ys =>
      rw [keysOf_cons, keysOf_cons] at hk
      injection hk with hxy hks
      have hy2 : lookupK key (key x) (y :: ys) = some y := by
        rw [hxy]; exact lookupK_head key y ys
      have h1 := hl (key x)
      rw [lookupK_head key x xs, hy2] at h1
      injection h1 with hx
      subst hx
      rw [keysOf_cons] at hnt hnu
      have hnx : key x ∉ keysOf key xs := (List.nodup_cons.mp hnt).1
      have hny : key x ∉ keysOf key ys := by
        rw [hxy]; exact (List.nodup_cons.mp hnu).1
      congr 1
      apply ih ys ((List.nodup_cons.mp hnt).2) ((List.nodup_cons.mp hnu).2) hks
      intro k
      by_cases hkx : k = key x
      · subst hkx
        rw [lookupK_of_not_mem key (key x) xs hnx, lookupK_of_not_mem key (key x) ys hny]
      · have h1 := hl k
        rw [lookupK_cons_ne key x xs k (fun he => hkx he.symm),
            lookupK_cons_ne key x ys k (fun he => hkx he.symm)] at h1
        exact h1

theorem applyAll_nil (t : List ρ) : applyAll key [] t = t := rfl

theorem applyAll_cons (r : ρ) (rs t : List ρ) :
    applyAll key (r :: rs) t = applyAll key rs (upsertRow key r t) := rfl

theorem mem_keys_upsertRow_self (r : ρ) (t : List ρ) :
    key r ∈ keysOf key (upsertRow key r t) := by
  by_cases hm : key r ∈ keysOf key t
  · rw [upsertRow_keys_of_mem key r t hm]; exact hm
  · rw [upsertRow_keys_of_not_mem key r t hm]; simp

theorem mem_keys_upsertRow_of_mem (r : ρ) (t : List ρ) (k : κ) (h : k ∈ keysOf key t) :
    k ∈ keysOf key (upsertRow key r t) := by
  by_cases hm : key r ∈ keysOf key t
  · rw [upsertRow_keys_of_mem key r t hm]; exact h
  · rw [upsertRow_keys_of_not_mem key r t hm]; exact List.mem_append_left _ h

theorem mem_keys_applyAll_of_mem (rs t : List ρ) (k : κ) (h : k ∈ keysOf key t) :
    k ∈ keysOf key (applyAll key rs t) := by
  induction rs generalizing t with
  | nil => exact h
  | cons r rs ih =>
    rw [applyAll_cons]
    exact ih _ (mem_keys_upsertRow_of_mem key r t k h)

theorem mem_keys_applyAll_self (rs t : List ρ) (r : ρ) (h : r ∈ rs) :
    key r ∈ keysOf key (applyAll key rs t) := by
  induction rs generalizing t with
  | nil => cases h
  | cons r0 rs ih =>
    rw [applyAll_cons]
    rcases List.mem_cons.mp h with h1 | h1
    · subst h1
      exact mem_keys_applyAll_of_mem key rs _ (key r) (mem_keys_upsertRow_self key r t)
    · exact ih _ h1

theorem keysOf_applyAll_of_all_mem (rs t : List ρ) (h : ∀ r ∈ rs, key r ∈ keysOf key t) :
    keysOf key (applyAll key rs t) = keysOf key t := by
  induction rs generalizing t with
  | nil => rfl
  | cons r rs ih =>
    rw [applyAll_cons]
    have h0 : key r ∈ keysOf key t := h r (List.mem_cons_self r rs)
    have hk := upsertRow_keys_of_mem key r t h0
    rw [ih _ (fun q hq => hk ▸ h q (List.mem_cons_of_mem r hq)), hk]

theorem applyAll_keys_nodup (rs t : List ρ) (h : (keysOf key t).Nodup) :
    (keysOf key (applyAll key rs t)).Nodup := by
  induction rs generalizing t with
  | nil => exact h
  | cons r rs ih =>
    rw [applyAll_cons]
    exact ih _ (upsertRow_keys_nodup key r t h)

theorem oelse_some (q : ρ) (d : Option ρ) : oelse (some q) d = some q := rfl

theorem oelse_none (d : Option ρ) : oelse none d = d := rfl

theorem foldl_step_eq (k : κ) (rs : List ρ) (init : Option ρ) :
    rs.foldl (fun acc r => if key r = k then some r else acc) init =
      oelse (lastWrite key rs k) init := by
  induction rs generalizing init with
  | nil => rfl
  | cons r rs ih =>
    rw [List.foldl_cons, ih]
    show oelse (lastWrite key rs k) _ = oelse (lastWrite key (r :: rs) k) init
    rw [show lastWrite key (r :: rs) k =
      rs.foldl (fun acc r => if key r = k then some r else acc)
        (if key r = k then some r else none) from rfl, ih]
    cases hlw : lastWrite key rs k with
    | some q => rfl
    | none =>
      by_cases hk : key r = k <;> simp [hk, oelse]

theorem lastWrite_cons (r : ρ) (rs : List ρ) (k : κ) :
    lastWrite key (r :: rs) k =
      oelse (lastWrite key rs k) (if key r = k then some r else none) := by
  show rs.foldl _ (if key r = k then some r else none) = _
  rw [foldl_step_eq]

theorem lookupK_applyAll (rs t : List ρ) (k : κ) :
    lookupK key k (applyAll key rs t) = oelse (lastWrite key rs k) (lookupK key k t) := by
  induction rs generalizing t with
  | nil => rfl
  | cons r rs ih =>
    rw [applyAll_cons, ih, lookupK_upsertRow, lastWrite_cons]
    cases hlw : lastWrite key rs k with
    | some q => rfl
    | none =>
      by_cases hk : k = key r
      · subst hk; simp [oelse]
      · have : ¬ (key r = k) := fun he => hk he.symm
        simp [oelse, hk, this]

theorem applyAll_idem (rs t : List ρ) (h : (keysOf key t).Nodup) :
    applyAll key rs (applyAll key rs t) = applyAll key rs t := by
  apply eq_of_keysOf_lookupK key
  · exact applyAll_keys_nodup key rs _ (applyAll_keys_nodup key rs t h)
  · exact applyAll_keys_nodup key rs t h
  · exact keysOf_applyAll_of_all_mem key rs _
      (fun r hr => mem_keys_applyAll_self key rs t r hr)
  · intro k
    rw [lookupK_applyAll, lookupK_applyAll]
    cases hlw : lastWrite key rs k with
    | some q => rfl
    | none => rfl

end TableLemmas

section PageFold

variable {ρ κ : Type} [DecidableEq κ]
variable (key : ρ → κ) (dec : Entity → Option (ρ × RawRow))
variable (G : DB → List ρ) (S : List ρ → List RawRow → DB → DB)
variable (f : Entity → DB → Option DB)

theorem rowsOf_cons {e : Entity} {pr : ρ × RawRow} (p : List Entity) (hpr : dec e = some pr) :
    rowsOf dec (e :: p) = pr.1 :: rowsOf dec p := by
  simp [rowsOf, hpr]

theorem rawsOf_cons {e : Entity} {pr : ρ × RawRow} (p : List Entity) (hpr : dec e = some pr) :
    rawsOf dec (e :: p) = pr.2 :: rawsOf dec p := by
  simp [rawsOf, hpr]

theorem applyPage_run
    (hf : ∀ e db, f e db = (dec e).map (fun pr =>
      S (upsertRow key pr.1 (G db)) (upsertRow rawKey pr.2 db.raw_snapshots) db))
    (hGS : ∀ l rl db, G (S l rl db) = l)
    (hRS : ∀ l rl db, (S l rl db).raw_snapshots = rl)
    (hSS : ∀ l1 rl1 l2 rl2 db, S l2 rl2 (S l1 rl1 db) = S l2 rl2 db)
    (hSG : ∀ db, S (G db) db.raw_snapshots db = db) :
    ∀ (p : List Entity) (db : DB), (∀ e ∈ p, (dec e).isSome) →
      applyPage f p db = some (S (applyAll key (rowsOf dec p) (G db))
        (applyAll rawKey (rawsOf dec p) db.raw_snapshots) db) := by
  intro p
  induction p with
  | nil =>
    intro db _
    simp only [applyPage, rowsOf, rawsOf, List.filterMap_nil, applyAll_nil, hSG]
  | cons e p ih =>
    intro db h
    have he : (Option.isSome (dec e)) := h e (List.mem_cons_self e p)
    obtain ⟨pr, hpr⟩ := Option.isSome_iff_exists.mp he
    have hfe : f e db = some (S (upsertRow key pr.1 (G db))
        (upsertRow rawKey pr.2 db.raw_snapshots) db) := by
      rw [hf, hpr]; rfl
    simp only [applyPage]
    rw [hfe]
    show applyPage f p (S (upsertRow key pr.1 (G db))
        (upsertRow rawKey pr.2 db.raw_snapshots) db) = _
    rw [ih _ (fun q hq => h q (List.mem_cons_of_mem e hq))]
    rw [rowsOf_cons dec p hpr, rawsOf_cons dec p hpr, applyAll_cons, applyAll_cons,
        hGS, hRS, hSS]

theorem applyPage_success_dec
    (hf : ∀ e db, f e db = (dec e).map (fun pr =>
      S (upsertRow key pr.1 (G db)) (upsertRow rawKey pr.2 db.raw_snapshots) db)) :
    ∀ (p : List Entity) (db db' : DB), applyPage f p db = some db' →
      ∀ e ∈ p, Option.isSome (dec e) := by
  intro p
  induction p with
  | nil => intro db db' _ e he; cases he
  | cons e0 p ih =>
    intro db db' h e he
    simp only [applyPage] at h
    cases hf0 : f e0 db with
    | none => rw [hf0] at h; cases h
    | some d1 =>
      rw [hf0] at h
      rcases List.mem_cons.mp he with he1 | he1
      · subst he1
        have hthis := hf e db
        rw [hf0] at hthis
        cases hde : dec e with
        | none => rw [hde] at hthis; simp at hthis
        | some pr => simp
      · exact ih _ _ h e he1

theorem applyPage_idem
    (hf : ∀ e db, f e db = (dec e).map (fun pr =>
      S (upsertRow key pr.1 (G db)) (upsertRow rawKey pr.2 db.raw_snapshots) db))
    (hGS : ∀ l rl db, G (S l rl db) = l)
    (hRS : ∀ l rl db, (S l rl db).raw_snapshots = rl)
    (hSS : ∀ l1 rl1 l2 rl2 db, S l2 rl2 (S l1 rl1 db) = S l2 rl2 db)
    (hSG : ∀ db, S (G db) db.raw_snapshots db = db)
    (p : List Entity) (db db' : DB)
    (hnd1 : (keysOf key (G db)).Nodup) (hnd2 : (keysOf rawKey db.raw_snapshots).Nodup)
    (h : applyPage f p db = some db') :
    applyPage f p db' = some db' := by
  have hdec := applyPage_success_dec key dec G S f hf p db db' h
  have h1 := applyPage_run key dec G S f hf hGS hRS hSS hSG p db hdec
  rw [h] at h1
  injection h1 with h1
  have h2 := applyPage_run key dec G S f hf hGS hRS hSS hSG p db' hdec
  calc applyPage f p db'
      = some (S (applyAll key (rowsOf dec p) (G db'))
          (applyAll rawKey (rawsOf dec p) db'.raw_snapshots) db') := h2
    _ = some db' := by
        rw [h1, hGS, hRS, hSS, applyAll_idem key _ _ hnd1, applyAll_idem rawKey _ _ hnd2]

end PageFold

/-- C1: Upserts are idempotent — for every resource kind of the Writer,
applying the same page of decoded entities twice (through the Writer
entry point of that kind) leaves the store, both its structured table and
its raw-snapshot table, exactly as applying it once, provided the store
satisfies the primary-key uniqueness the SQL schema enforces. -/
theorem upsert_page_idempotent (k : WKind) (p : List Entity) (db db' : DB)
    (hwf : db.Wf) (h : applyPage (upsertEntity k) p db = some db') :
    applyPage (upsertEntity k) p db' = some db' := by
  obtain ⟨hc, hraw, hu, ho, ht, hcm, hat, hv, htr, htc, hm⟩ := hwf
  cases k with
  | users =>
    exact applyPage_idem (fun r : UserRow => r.id) Backup.decodeUser
      (fun db => db.users) (fun l rl db => { db with users := l, raw_snapshots := rl })
      (upsertEntity .users) (fun e db => rfl)
      (fun l rl db => rfl) (fun l rl db => rfl) (fun l1 rl1 l2 rl2 db => rfl) (fun db => rfl)
      p db db' hu hraw h
  | organizations =>
    exact applyPage_idem (fun r : OrgRow => r.id) Backup.decodeOrg
      (fun db => db.organizations)
      (fun l rl db => { db with organizations := l, raw_snapshots := rl })
      (upsertEntity .organizations) (fun e db => rfl)
      (fun l rl db => rfl) (fun l rl db => rfl) (fun l1 rl1 l2 rl2 db => rfl) (fun db => rfl)
      p db db' ho hraw h
  | tickets =>
    exact applyPage_idem (fun r : TicketRow => r.id) Backup.decodeTicket
      (fun db => db.tickets) (fun l rl db => { db with tickets := l, raw_snapshots := rl })
      (upsertEntity .tickets) (fun e db => rfl)
      (fun l rl db => rfl) (fun l rl db => rfl) (fun l1 rl1 l2 rl2 db => rfl) (fun db => rfl)
      p db db' ht hraw h
  | comments tid =>
    exact applyPage_idem (fun r : CommentRow => r.id) (Backup.decodeComment tid)
      (fun db => db.ticket_comments)
      (fun l rl db => { db with ticket_comments := l, raw_snapshots := rl })
      (upsertEntity (.comments tid)) (fun e db => rfl)
      (fun l rl db => rfl) (fun l rl db => rfl) (fun l1 rl1 l2 rl2 db => rfl) (fun db => rfl)
      p db db' hcm hraw h
  | attachments tid cid lp =>
    exact applyPage_idem (fun r : AttachmentRow => r.id) (Backup.decodeAttachment tid cid lp)
      (fun db => db.attachments)
      (fun l rl db => { db with attachments := l, raw_snapshots := rl })
      (upsertEntity (.attachments tid cid lp)) (fun e db => rfl)
      (fun l rl db => rfl) (fun l rl db => rfl) (fun l1 rl1 l2 rl2 db => rfl) (fun db => rfl)
      p db db' hat hraw h
  | views =>
    exact applyPage_idem (fun r : ViewRow => r.id) Backup.decodeView
      (fun db => db.views) (fun l rl db => { db with views := l, raw_snapshots := rl })
      (upsertEntity .views) (fun e db => rfl)
      (fun l rl db => rfl) (fun l rl db => rfl) (fun l1 rl1 l2 rl2 db => rfl) (fun db => rfl)
      p db db' hv hraw h
  | triggers =>
    exact applyPage_idem (fun r : TriggerRow => r.id) Backup.decodeTrigger
      (fun db => db.triggers) (fun l rl db => { db with triggers := l, raw_snapshots := rl })
      (upsertEntity .triggers) (fun e db => rfl)
      (fun l rl db => rfl) (fun l rl db => rfl) (fun l1 rl1 l2 rl2 db => rfl) (fun db => rfl)
      p db db' htr hraw h
  | trigger_categories =>
    exact applyPage_idem (fun r : TriggerCategoryRow => r.id) Backup.decodeTriggerCategory
      (fun db => db.trigger_categories)
      (fun l rl db => { db with trigger_categories := l, raw_snapshots := rl })
      (upsertEntity .trigger_categories) (fun e db => rfl)
      (fun l rl db => rfl) (fun l rl db => rfl) (fun l1 rl1 l2 rl2 db => rfl) (fun db => rfl)
      p db db' htc hraw h
  | macros =>
    exact applyPage_idem (fun r : MacroRow => r.id) Backup.decodeMacro
      (fun db => db.macros) (fun l rl db => { db with macros := l, raw_snapshots := rl })
      (upsertEntity .macros) (fun e db => rfl)
      (fun l rl db => rfl) (fun l rl db => rfl) (fun l1 rl1 l2 rl2 db => rfl) (fun db => rfl)
      p db db' hm hraw h

/-- Witness for C1 at a concrete input: a two-entity users page applied
to the empty store, then applied again to the result, reproduces the
result. -/
theorem upsert_page_idempotent_witness :
    applyPage (upsertEntity WKind.users) [sampleUser, sampleUser2]
      ((applyPage (upsertEntity WKind.users) [sampleUser, sampleUser2] emptyDB).getD emptyDB) =
    some ((applyPage (upsertEntity WKind.users) [sampleUser, sampleUser2] emptyDB).getD emptyDB) :=
  upsert_page_idempotent WKind.users [sampleUser, sampleUser2] emptyDB _ (by decide) rfl

/-- C2: the code evaluated at the failing input. With dry-run set, the
restore driver still executes the destructive pre-truncate whenever
truncate-first is also set: restoring scope "users" over a store holding
one user row empties the users table even though dry-run promised to
count without writing (and indeed counts zero rows restored). -/
theorem restore_dry_run_truncates :
    (Restore.restore (fun _ => none) "users" none 0 true true dbOneUser).map
        (fun r => (r.1.users, r.2)) = some ([], [("users", 0)]) ∧
      dbOneUser.users = [sampleUserRow] := by
  constructor
  · rfl
  · rfl

/-! ### C9: restore never writes the comment or attachment tables -/

theorem RESTORERS_frame :
    ∀ p ∈ Restore.RESTORERS, ∀ (j : Json) (db db' : DB), p.2 j db = some db' →
      db'.ticket_comments = db.ticket_comments ∧ db'.attachments = db.attachments := by
  intro p hp j db db' h
  simp only [Restore.RESTORERS, List.mem_cons, List.not_mem_nil, or_false] at hp
  rcases hp with rfl | rfl | rfl | rfl | rfl | rfl | rfl <;>
    (cases j with
     | obj kvs =>
       simp only [Restore.runRestorer, Restore.upsert_user, Restore.upsert_org,
         Restore.upsert_ticket, Restore.upsert_view, Restore.upsert_trigger,
         Restore.upsert_trigger_category, Restore.upsertMacro, Option.map_eq_some'] at h
       obtain ⟨pr, hpr, h⟩ := h
       exact ⟨by rw [← h], by rw [← h]⟩
     | null => cases h
     | bool b => cases h
     | num n => cases h
     | str s => cases h
     | arr xs => cases h)

theorem restoreStep_frame (jp : String → Option Json) (fn : Json → DB → Option DB)
    (dry : Bool) (s : Restore.RestState) (row : Restore.RestRow)
    (hfn : ∀ (j : Json) (db db' : DB), fn j db = some db' →
      db'.ticket_comments = db.ticket_comments ∧ db'.attachments = db.attachments) :
    (Restore.restoreStep jp fn dry s row).db.ticket_comments = s.db.ticket_comments ∧
      (Restore.restoreStep jp fn dry s row).db.attachments = s.db.attachments := by
  unfold Restore.restoreStep
  by_cases hseen : row.entity_id ∈ s.seen
  · simp [hseen]
  · simp only [hseen, if_false]
    cases hc : Restore.coercePayload jp row.payload_json with
    | none => exact ⟨rfl, rfl⟩
    | some pl =>
      cases dry with
      | true => exact ⟨rfl, rfl⟩
      | false =>
        simp only [Bool.false_eq_true, if_false]
        cases hfn2 : fn pl s.db with
        | none => exact ⟨rfl, rfl⟩
        | some db1 => exact hfn pl s.db db1 hfn2

theorem restoreRows_frame (jp : String → Option Json) (fn : Json → DB → Option DB)
    (dry : Bool) (rows : List Restore.RestRow) (s : Restore.RestState)
    (hfn : ∀ (j : Json) (db db' : DB), fn j db = some db' →
      db'.ticket_comments = db.ticket_comments ∧ db'.attachments = db.attachments) :
    (Restore.restoreRows jp fn dry rows s).db.ticket_comments = s.db.ticket_comments ∧
      (Restore.restoreRows jp fn dry rows s).db.attachments = s.db.attachments := by
  induction rows generalizing s with
  | nil => exact ⟨rfl, rfl⟩
  | cons r rs ih =>
    have h1 := restoreStep_frame jp fn dry s r hfn
    have h2 := ih (Restore.restoreStep jp fn dry s r)
    exact ⟨h2.1.trans h1.1, h2.2.trans h1.2⟩

theorem restoreScopes_frame (jp : String → Option Json) (dry : Bool) (limit : Option Nat)
    (offset : Nat) (scopes : List String) (db db' : DB) (acc cs : List (String × Nat))
    (h : Restore.restoreScopes jp dry limit offset scopes db acc = some (db', cs)) :
    db'.ticket_comments = db.ticket_comments ∧ db'.attachments = db.attachments := by
  induction scopes generalizing db acc with
  | nil =>
    simp only [Restore.restoreScopes] at h
    injection h with h
    rw [show db' = db from congrArg Prod.fst h.symm]
    exact ⟨rfl, rfl⟩
  | cons res rest ih =>
    simp only [Restore.restoreScopes] at h
    cases hres : Restore.restorerFor res with
    | none => rw [hres] at h; cases h
    | some fn =>
      rw [hres] at h
      have hmem : (res, fn).2 = fn ∧ ∃ q ∈ Restore.RESTORERS, q.2 = fn := by
        refine ⟨rfl, ?_⟩
        unfold Restore.restorerFor at hres
        cases hfind : Restore.RESTORERS.find? (fun p => p.1 = res) with
        | none => rw [hfind] at hres; cases hres
        | some q =>
          rw [hfind] at hres
          injection hres with hres
          exact ⟨q, List.mem_of_find?_eq_some hfind, hres⟩
      obtain ⟨-, q, hq, hqf⟩ := hmem
      have hfn : ∀ (j : Json) (d d' : DB), fn j d = some d' →
          d'.ticket_comments = d.ticket_comments ∧ d'.attachments = d.attachments := by
        intro j d d' hj
        exact RESTORERS_frame q hq j d d' (by rw [hqf]; exact hj)
      have hrr := restoreRows_frame jp fn dry
        (Restore.load_raw_rows db res limit offset) ⟨db, [], 0⟩ hfn
      have hrest := ih _ _ h
      unfold Restore.restoreResource at hrest
      exact ⟨hrest.1.trans hrr.1, hrest.2.trans hrr.2⟩

theorem truncate_table_frame (db : DB) (s : String) :
    (Restore.truncate_table db s).ticket_comments = db.ticket_comments ∧
      (Restore.truncate_table db s).attachments = db.attachments := by
  unfold Restore.truncate_table
  split <;> exact ⟨rfl, rfl⟩

theorem maybe_truncate_frame (db : DB) (sl : List String) (tf : Bool) :
    (Restore.maybe_truncate db sl tf).ticket_comments = db.ticket_comments ∧
      (Restore.maybe_truncate db sl tf).attachments = db.attachments := by
  unfold Restore.maybe_truncate
  cases tf with
  | false => exact ⟨rfl, rfl⟩
  | true =>
    simp only [if_true]
    induction sl generalizing db with
    | nil => exact ⟨rfl, rfl⟩
    | cons s rest ih =>
      rw [List.foldl_cons]
      have h1 := truncate_table_frame db s
      have h2 := ih (Restore.truncate_table db s)
      exact ⟨h2.1.trans h1.1, h2.2.trans h1.2⟩

/-- C9: restore never writes the ticket_comments or attachments
structured tables. For every scope selection (including "all"), limit,
offset, truncate and dry-run setting, a completed restore leaves both
tables exactly as it found them; in particular, restoring into wiped
structured tables leaves those two tables empty. -/
theorem restore_excludes_comments_attachments (jp : String → Option Json) (scope : String)
    (limit : Option Nat) (offset : Nat) (tf dry : Bool) (db db' : DB)
    (cs : List (String × Nat))
    (h : Restore.restore jp scope limit offset tf dry db = some (db', cs)) :
    db'.ticket_comments = db.ticket_comments ∧ db'.attachments = db.attachments ∧
      (db.ticket_comments = [] → db'.ticket_comments = []) ∧
      (db.attachments = [] → db'.attachments = []) := by
  unfold Restore.restore at h
  cases hs : Restore.parseScope scope with
  | none => rw [hs] at h; cases h
  | some sl =>
    rw [hs] at h
    have h1 := restoreScopes_frame jp dry limit offset sl
      (Restore.maybe_truncate db sl tf) db' [] cs h
    have h2 := maybe_truncate_frame db sl tf
    refine ⟨h1.1.trans h2.1, h1.2.trans h2.2, ?_, ?_⟩
    · intro he; rw [h1.1.trans h2.1, he]
    · intro he; rw [h1.2.trans h2.2, he]

/-- Witness for C9 at a concrete input: a full-scope restore over a store
holding one user row leaves the (empty) comment and attachment tables
untouched. -/
theorem restore_excludes_comments_attachments_witness :
    ((Restore.restore (fun _ => none) "all" none 0 false false dbOneUser).getD
        (emptyDB, [])).1.ticket_comments = dbOneUser.ticket_comments ∧
      ((Restore.restore (fun _ => none) "all" none 0 false false dbOneUser).getD
        (emptyDB, [])).1.attachments = dbOneUser.attachments ∧
      (dbOneUser.ticket_comments = [] →
        ((Restore.restore (fun _ => none) "all" none 0 false false dbOneUser).getD
          (emptyDB, [])).1.ticket_comments = []) ∧
      (dbOneUser.attachments = [] →
        ((Restore.restore (fun _ => none) "all" none 0 false false dbOneUser).getD
          (emptyDB, [])).1.attachments = []) :=
  restore_excludes_comments_attachments (fun _ => none) "all" none 0 false false
    dbOneUser _ _ rfl

/-! ### C7: defaults for absent nested collections -/

/-- C7 counterexample: the claim "absent nested collections are stored as
empty containers, never null, across all resource kinds including views
and macros" fails on the code. A view entity with no conditions key is
stored with conditions_json null (json.dumps(v.get("conditions")) has no
default), and a macro entity with no restriction key is stored with
restriction_json null — not empty containers. -/
theorem view_macro_null_document_columns :
    (Backup.upsert_view sampleView emptyDB).map
        (fun d => d.views.map (fun v =>
          (v.restriction_json, v.execution_json, v.conditions_json))) =
      some [(Json.null, Json.null, Json.null)] ∧
    (Backup.upsertMacro sampleMacro emptyDB).map
        (fun d => d.macros.map (fun m => m.restriction_json)) = some [Json.null] ∧
    Json.null ≠ Json.arr [] ∧ Json.null ≠ Json.obj [] := by
  refine ⟨rfl, rfl, by decide, by decide⟩

/-- C7 as amended: for every entity written by the Writer, the nested
collections that receive an or-default are stored as empty containers
when absent — users' tags / user_fields / photo, organizations'
domain_names / tags / organization_fields, triggers' conditions /
actions, macros' actions, attachments' thumbnails — while views'
restriction / execution / conditions and macros' restriction are stored
as null when absent. Each conjunct states the value of the freshly
stored row. -/
theorem absent_nested_collections :
    (∀ (u : Entity) (db db' : DB) (pr : UserRow × RawRow),
      Backup.decodeUser u = some pr → Backup.upsert_user u db = some db' →
      lookupK (fun r : UserRow => r.id) pr.1.id db'.users = some pr.1 ∧
      (eGet u "tags" = Json.null → pr.1.tags_json = Json.arr []) ∧
      (eGet u "user_fields" = Json.null → pr.1.user_fields_json = Json.obj []) ∧
      (eGet u "photo" = Json.null → pr.1.photo_json = Json.obj [])) ∧
    (∀ (o : Entity) (db db' : DB) (pr : OrgRow × RawRow),
      Backup.decodeOrg o = some pr → Backup.upsert_org o db = some db' →
      lookupK (fun r : OrgRow => r.id) pr.1.id db'.organizations = some pr.1 ∧
      (eGet o "domain_names" = Json.null → pr.1.domain_names_json = Json.arr []) ∧
      (eGet o "tags" = Json.null → pr.1.tags_json = Json.arr []) ∧
      (eGet o "organization_fields" = Json.null → pr.1.organization_fields_json = Json.obj [])) ∧
    (∀ (t : Entity) (db db' : DB) (pr : TriggerRow × RawRow),
      Backup.decodeTrigger t = some pr → Backup.upsert_trigger t db = some db' →
      lookupK (fun r : TriggerRow => r.id) pr.1.id db'.triggers = some pr.1 ∧
      (eGet t "conditions" = Json.null → pr.1.conditions_json = Json.obj []) ∧
      (eGet t "actions" = Json.null → pr.1.actions_json = Json.arr [])) ∧
    (∀ (m : Entity) (db db' : DB) (pr : MacroRow × RawRow),
      Backup.decodeMacro m = some pr → Backup.upsertMacro m db = some db' →
      lookupK (fun r : MacroRow => r.id) pr.1.id db'.macros = some pr.1 ∧
      (eGet m "actions" = Json.null → pr.1.actions_json = Json.arr []) ∧
      (eGet m "restriction" = Json.null → pr.1.restriction_json = Json.null)) ∧
    (∀ (tid : Int) (cid : Option Int) (lp : Option String) (a : Entity) (db db' : DB)
        (pr : AttachmentRow × RawRow),
      Backup.decodeAttachment tid cid lp a = some pr →
      Backup.upsert_attachment tid cid lp a db = some db' →
      lookupK (fun r : AttachmentRow => r.id) pr.1.id db'.attachments = some pr.1 ∧
      (eGet a "thumbnails" = Json.null → pr.1.thumbnails_json = Json.arr [])) ∧
    (∀ (v : Entity) (db db' : DB) (pr : ViewRow × RawRow),
      Backup.decodeView v = some pr → Backup.upsert_view v db = some db' →
      lookupK (fun r : ViewRow => r.id) pr.1.id db'.views = some pr.1 ∧
      (eGet v "restriction" = Json.null → pr.1.restriction_json = Json.null) ∧
      (eGet v "execution" = Json.null → pr.1.execution_json = Json.null) ∧
      (eGet v "conditions" = Json.null → pr.1.conditions_json = Json.null)) := by
  refine ⟨?_, ?_, ?_, ?_, ?_, ?_⟩
  · intro u db db' pr hde h
    rw [Backup.upsert_user, hde] at h
    injection h with h
    subst h
    refine ⟨by rw [lookupK_upsertRow]; simp, ?_, ?_, ?_⟩ <;>
      (intro habs
       rcases hid : pyInt (eGet u "id") with - | uid <;>
         rw [Backup.decodeUser, hid] at hde
       · cases hde
       · injection hde with hde
         rw [← hde]
         simp [habs, pyOr, Json.falsy])
  · intro o db db' pr hde h
    rw [Backup.upsert_org, hde] at h
    injection h with h
    subst h
    refine ⟨by rw [lookupK_upsertRow]; simp, ?_, ?_, ?_⟩ <;>
      (intro habs
       rcases hid : pyInt (eGet o "id") with - | oid <;>
         rw [Backup.decodeOrg, hid] at hde
       · cases hde
       · injection hde with hde
         rw [← hde]
         simp [habs, pyOr, Json.falsy])
  · intro t db db' pr hde h
    rw [Backup.upsert_trigger, hde] at h
    injection h with h
    subst h
    refine ⟨by rw [lookupK_upsertRow]; simp, ?_, ?_⟩ <;>
      (intro habs
       rcases hid : pyInt (eGet t "id") with - | tid <;>
         rw [Backup.decodeTrigger, hid] at hde
       · cases hde
       · injection hde with hde
         rw [← hde]
         simp [habs, pyOr, Json.falsy])
  · intro m db db' pr hde h
    rw [Backup.upsertMacro, hde] at h
    injection h with h
    subst h
    refine ⟨by rw [lookupK_upsertRow]; simp, ?_, ?_⟩ <;>
      (intro habs
       rcases hid : pyInt (eGet m "id") with - | mid <;>
         rw [Backup.decodeMacro, hid] at hde
       · cases hde
       · injection hde with hde
         rw [← hde]
         simp [habs, pyOr, Json.falsy])
  · intro tid cid lp a db db' pr hde h
    rw [Backup.upsert_attachment, hde] at h
    injection h with h
    subst h
    refine ⟨by rw [lookupK_upsertRow]; simp, ?_⟩
    intro habs
    rcases hid : pyInt (eGet a "id") with - | aid <;>
      rw [Backup.decodeAttachment, hid] at hde
    · cases hde
    · injection hde with hde
      rw [← hde]
      simp [habs, pyOr, Json.falsy]
  · intro v db db' pr hde h
    rw [Backup.upsert_view, hde] at h
    injection h with h
    subst h
    refine ⟨by rw [lookupK_upsertRow]; simp, ?_, ?_, ?_⟩ <;>
      (intro habs
       rcases hid : pyInt (eGet v "id") with - | vid <;>
         rw [Backup.decodeView, hid] at hde
       · cases hde
       · injection hde with hde
         rw [← hde]
         simp [habs])

/-- Witness for C7-as-amended at a concrete input: a user entity with no
tags / user_fields / photo keys is stored with empty containers in all
three columns. -/
theorem absent_nested_collections_witness :
    lookupK (fun r : UserRow => r.id) 1
        (((Backup.upsert_user sampleUser emptyDB).getD emptyDB).users) =
      some ((Backup.decodeUser sampleUser).getD (sampleUserRow, rawA)).1 ∧
    ((Backup.decodeUser sampleUser).getD (sampleUserRow, rawA)).1.tags_json = Json.arr [] ∧
    ((Backup.decodeUser sampleUser).getD (sampleUserRow, rawA)).1.user_fields_json = Json.obj [] ∧
    ((Backup.decodeUser sampleUser).getD (sampleUserRow, rawA)).1.photo_json = Json.obj [] := by
  have h := absent_nested_collections.1 sampleUser emptyDB
    ((Backup.upsert_user sampleUser emptyDB).getD emptyDB)
    ((Backup.decodeUser sampleUser).getD (sampleUserRow, rawA)) rfl rfl
  exact ⟨h.1, h.2.1 rfl, h.2.2.1 rfl, h.2.2.2 rfl⟩

/-! ### C10: comment updated_at falls back to created_at -/

/-- C10: when a comment carries no update timestamp, the Writer
substitutes its creation timestamp — the stored structured row and the
raw snapshot's recorded update time both equal parse_dt of created_at —
and a comment synthesized from a ticket-event child event always carries
updated_at equal to the event's created_at. -/
theorem comment_updated_at_fallback :
    (∀ (tid : Int) (c : Entity) (db db' : DB) (pr : CommentRow × RawRow),
      Backup.decodeComment tid c = some pr → Backup.upsert_comment tid c db = some db' →
      lookupK (fun r : CommentRow => r.id) pr.1.id db'.ticket_comments = some pr.1 ∧
      lookupK rawKey ("comments", pr.1.id) db'.raw_snapshots = some pr.2 ∧
      (eGet c "updated_at" = Json.null →
        pr.1.updated_at = parse_dt (eGet c "created_at") ∧
        pr.2.updated_at = parse_dt (eGet c "created_at"))) ∧
    (∀ ce : Entity, eGet (eventComment ce) "updated_at" = eGet ce "created_at") := by
  constructor
  · intro tid c db db' pr hde h
    rw [Backup.upsert_comment, hde] at h
    injection h with h
    subst h
    rcases hid : pyInt (eGet c "id") with - | cid <;>
      rw [Backup.decodeComment, hid] at hde
    · cases hde
    · injection hde with hde
      subst hde
      refine ⟨by rw [lookupK_upsertRow]; simp, by rw [lookupK_upsertRow]; simp [rawKey], ?_⟩
      intro habs
      constructor <;> simp [habs, pyOr, Json.falsy]
  · intro ce
    rfl

/-- Witness for C10 at a concrete input: a comment with no updated_at key
gets its created_at as both stored update times, and the sample
child-event comment carries updated_at equal to the event's created_at. -/
theorem comment_updated_at_fallback_witness :
    lookupK rawKey ("comments", 10)
        (((Backup.upsert_comment 7 sampleComment emptyDB).getD emptyDB).raw_snapshots) =
      some ((Backup.decodeComment 7 sampleComment).getD (⟨0, 0, Json.null, false, Json.null,
        none, none⟩, rawA)).2 ∧
    ((Backup.decodeComment 7 sampleComment).getD (⟨0, 0, Json.null, false, Json.null,
        none, none⟩, rawA)).1.updated_at = parse_dt (eGet sampleComment "created_at") ∧
    ((Backup.decodeComment 7 sampleComment).getD (⟨0, 0, Json.null, false, Json.null,
        none, none⟩, rawA)).2.updated_at = parse_dt (eGet sampleComment "created_at") ∧
    eGet (eventComment sampleChildEvent) "updated_at" = eGet sampleChildEvent "created_at" := by
  have h := comment_updated_at_fallback.1 7 sampleComment emptyDB
    ((Backup.upsert_comment 7 sampleComment emptyDB).getD emptyDB)
    ((Backup.decodeComment 7 sampleComment).getD (⟨0, 0, Json.null, false, Json.null,
        none, none⟩, rawA)) rfl rfl
  exact ⟨h.2.1, (h.2.2 rfl).1, (h.2.2 rfl).2, comment_updated_at_fallback.2 sampleChildEvent⟩

/-! ### C8: retention pruning of non-closed tickets -/

/-- C8: with closed-only filtering and pruning both enabled, a ticket in
a sync page whose (case-folded) status is not closed is deleted from the
store together with its comments and attachments, and is not upserted:
the per-ticket step returns exactly the cascading delete_ticket state, in
which no row of the ticket, none of its comments and none of its
attachments remain. -/
theorem prune_reopened_tickets (cfg : Cfg) (cfeeds : Int → List CommentPage) (dl : DlFn)
    (t : Entity) (db : DB) (st : String) (tid : Int)
    (hclosed : cfg.closedTicketsOnly = true) (hprune : cfg.pruneReopenedFromDb = true)
    (hst : statusLower t = some st) (hne : st ≠ "closed")
    (hid : pyInt (eGet t "id") = some tid) :
    processTicket cfg cfeeds dl t db = some (Backup.delete_ticket tid db) ∧
    (Backup.delete_ticket tid db).tickets = db.tickets.filter (fun r => r.id ≠ tid) ∧
    (Backup.delete_ticket tid db).ticket_comments =
      db.ticket_comments.filter (fun c => c.ticket_id ≠ tid) ∧
    (Backup.delete_ticket tid db).attachments =
      db.attachments.filter (fun a => a.ticket_id ≠ tid) ∧
    (∀ r ∈ (Backup.delete_ticket tid db).tickets, r.id ≠ tid) ∧
    (∀ c ∈ (Backup.delete_ticket tid db).ticket_comments, c.ticket_id ≠ tid) ∧
    (∀ a ∈ (Backup.delete_ticket tid db).attachments, a.ticket_id ≠ tid) := by
  refine ⟨?_, rfl, rfl, rfl, ?_, ?_, ?_⟩
  · simp only [processTicket, hst]
    rw [if_pos (show cfg.closedTicketsOnly = true ∧ ¬ st = "closed" from ⟨hclosed, hne⟩),
      if_pos (show cfg.pruneReopenedFromDb = true from hprune), hid]
    rfl
  · intro r hr
    have := List.of_mem_filter hr
    simpa using this
  · intro c hc
    have := List.of_mem_filter hc
    simpa using this
  · intro a ha
    have := List.of_mem_filter ha
    simpa using this

/-- Witness for C8 at a concrete input: with both flags on, the sample
open-status ticket is pruned from a store rather than upserted. -/
theorem prune_reopened_tickets_witness :
    processTicket ⟨true, true, false⟩ (fun _ => []) (fun _ _ _ => none) sampleOpenTicket
        dbOneUser = some (Backup.delete_ticket 42 dbOneUser) ∧
      (∀ r ∈ (Backup.delete_ticket 42 dbOneUser).tickets, r.id ≠ 42) := by
  have h := prune_reopened_tickets ⟨true, true, false⟩ (fun _ => []) (fun _ _ _ => none)
    sampleOpenTicket dbOneUser "open" 42 rfl rfl rfl (by decide) rfl
  exact ⟨h.1, h.2.2.2.2.1⟩

/-! ### C3: bounded retries and the content of the terminal errors -/

/-- C3 counterexample: with every attempt answered by a retryable 500,
the fetch terminates with the exhausted-retries error, which names only
the URL — it carries neither the last response's status nor any body
snippet, contrary to the claim. -/
theorem retry_exhaustion_lacks_status :
    get_with_retry "https://api/things" (fun _ => resp500) =
      Except.error (FetchErr.exhaustedRetries "https://api/things") ∧
    FetchErr.statusOf (FetchErr.exhaustedRetries "https://api/things") = none ∧
    FetchErr.detailOf (FetchErr.exhaustedRetries "https://api/things") = none ∧
    resp500.status = 500 ∧ respDetail resp500 ≠ Json.null := by
  refine ⟨rfl, rfl, rfl, rfl, by decide⟩

theorem getWithRetryAux_congr (url : String) (f g : Nat → HResp) :
    ∀ (fuel i : Nat), (∀ j, i ≤ j → j < i + fuel → f j = g j) →
      getWithRetryAux url f fuel i = getWithRetryAux url g fuel i := by
  intro fuel
  induction fuel with
  | zero => intro i _; rfl
  | succ fuel ih =>
    intro i h
    have hi : f i = g i := h i (Nat.le_refl i) (by omega)
    simp only [getWithRetryAux, hi]
    have htail : ∀ j, i + 1 ≤ j → j < (i + 1) + fuel → f j = g j := by
      intro j h1 h2; exact h j (by omega) (by omega)
    by_cases h200 : (g i).status = 200
    · simp [h200]
    · simp only [h200, if_false]
      by_cases hretry : (g i).status ∈ RETRY_STATUS
      · simp only [hretry, if_true]
        cases (g i).retryAfter with
        | none => exact ih (i + 1) htail
        | some s =>
          by_cases hfp : floatParses s = true
          · simp [hfp, ih (i + 1) htail]
          · simp [hfp]
      · simp [hretry]

theorem getWithRetryAux_all_retryable (url : String) (f : Nat → HResp) :
    ∀ (fuel i : Nat),
      (∀ j, i ≤ j → j < i + fuel → (f j).status ∈ RETRY_STATUS ∧
        ((f j).retryAfter = none ∨
          ∃ s, (f j).retryAfter = some s ∧ floatParses s = true)) →
      getWithRetryAux url f fuel i = Except.error (FetchErr.exhaustedRetries url) := by
  intro fuel
  induction fuel with
  | zero => intro i _; rfl
  | succ fuel ih =>
    intro i h
    obtain ⟨hretry, hra⟩ := h i (Nat.le_refl i) (by omega)
    have h200 : ¬ ((f i).status = 200) := by
      intro he
      rw [he] at hretry
      simp [RETRY_STATUS] at hretry
    have htail : ∀ j, i + 1 ≤ j → j < (i + 1) + fuel → (f j).status ∈ RETRY_STATUS ∧
        ((f j).retryAfter = none ∨
          ∃ s, (f j).retryAfter = some s ∧ floatParses s = true) := by
      intro j h1 h2; exact h j (by omega) (by omega)
    simp only [getWithRetryAux, h200, if_false, hretry, if_true]
    rcases hra with hra | ⟨s, hs, hfp⟩
    · rw [hra]; exact ih (i + 1) htail
    · rw [hs]; simp only [hfp, if_true]; exact ih (i + 1) htail

/-- C3 as amended: the attempt count of the retrying fetcher is bounded
by eight — the outcome depends only on the first eight responses; when
every attempt returns a retryable status (with a well-formed or absent
Retry-After hint) the raised terminal error is the exhausted-retries one,
which identifies the URL but carries neither the last status nor a body
snippet; the status and body-snippet diagnostics are carried by the error
raised immediately on a non-retryable non-200 response. -/
theorem retry_attempts_bounded :
    (∀ (url : String) (f g : Nat → HResp), (∀ i, i < 8 → f i = g i) →
      get_with_retry url f = get_with_retry url g) ∧
    (∀ (url : String) (f : Nat → HResp),
      (∀ i, i < 8 → (f i).status ∈ RETRY_STATUS ∧
        ((f i).retryAfter = none ∨
          ∃ s, (f i).retryAfter = some s ∧ floatParses s = true)) →
      get_with_retry url f = Except.error (FetchErr.exhaustedRetries url) ∧
      FetchErr.statusOf (FetchErr.exhaustedRetries url) = none ∧
      FetchErr.detailOf (FetchErr.exhaustedRetries url) = none) ∧
    (∀ (url : String) (f : Nat → HResp),
      (f 0).status ≠ 200 → (f 0).status ∉ RETRY_STATUS →
      get_with_retry url f =
        Except.error (FetchErr.failed url (f 0).status (respDetail (f 0))) ∧
      FetchErr.statusOf (FetchErr.failed url (f 0).status (respDetail (f 0))) =
        some (f 0).status ∧
      FetchErr.detailOf (FetchErr.failed url (f 0).status (respDetail (f 0))) =
        some (respDetail (f 0))) := by
  refine ⟨?_, ?_, ?_⟩
  · intro url f g h
    exact getWithRetryAux_congr url f g 8 0 (fun j _ hj => h j (by omega))
  · intro url f h
    exact ⟨getWithRetryAux_all_retryable url f 8 0 (fun j _ hj => h j (by omega)), rfl, rfl⟩
  · intro url f h200 hretry
    refine ⟨?_, rfl, rfl⟩
    simp only [get_with_retry, getWithRetryAux, h200, if_false, hretry]

/-- Witness for C3-as-amended at concrete inputs: two response sequences
agreeing on the first eight attempts fetch identically; an all-500 feed
exhausts the bound with the URL-only error; a 403 with a JSON body raises
immediately carrying status 403 and the body. -/
theorem retry_attempts_bounded_witness :
    get_with_retry "u" (fun _ => resp500) =
      get_with_retry "u" (fun i => if i < 8 then resp500 else resp403) ∧
    (get_with_retry "u" (fun _ => resp500) =
      Except.error (FetchErr.exhaustedRetries "u") ∧
      FetchErr.statusOf (FetchErr.exhaustedRetries "u") = none ∧
      FetchErr.detailOf (FetchErr.exhaustedRetries "u") = none) ∧
    get_with_retry "u" (fun _ => resp403) =
      Except.error (FetchErr.failed "u" resp403.status (respDetail resp403)) := by
  refine ⟨?_, ?_, ?_⟩
  · exact retry_attempts_bounded.1 "u" _ _ (fun i hi => by simp [hi])
  · exact retry_attempts_bounded.2.1 "u" _ (fun i hi => ⟨by decide, Or.inl rfl⟩)
  · exact (retry_attempts_bounded.2.2 "u" (fun _ => resp403) (by decide) (by decide)).1

/-! ### C6: cursor checkpoint per page -/

theorem oelse_assoc {α : Type} (a b c : Option α) :
    oelse (oelse a b) c = oelse a (oelse b c) := by
  cases a <;> rfl

theorem oelse_none_left {α : Type} (a : Option α) : oelse none a = a := rfl

theorem upsertEntity_sync_state (k : WKind) (e : Entity) (db db' : DB)
    (h : upsertEntity k e db = some db') : db'.sync_state = db.sync_state := by
  cases k <;>
    (simp only [upsertEntity, Backup.upsert_user, Backup.upsert_org, Backup.upsert_ticket,
       Backup.upsert_comment, Backup.upsert_attachment, Backup.upsert_view,
       Backup.upsert_trigger, Backup.upsert_trigger_category, Backup.upsertMacro,
       Option.map_eq_some'] at h
     obtain ⟨pr, hpr, h⟩ := h
     rw [← h])

theorem applyPage_sync_state (f : Entity → DB → Option DB)
    (hf : ∀ (e : Entity) (db db' : DB), f e db = some db' → db'.sync_state = db.sync_state) :
    ∀ (p : List Entity) (db db' : DB), applyPage f p db = some db' →
      db'.sync_state = db.sync_state := by
  intro p
  induction p with
  | nil => intro db db' h; injection h with h; rw [← h]
  | cons e pp ih =>
    intro db db' h
    simp only [applyPage] at h
    cases h1 : f e db with
    | none => rw [h1] at h; cases h
    | some d1 => rw [h1] at h; exact (ih d1 db' h).trans (hf e db d1 h1)

theorem processComment_sync_state (dl : DlFn) (tid : Int) (c : Entity) (db db' : DB)
    (h : processComment dl tid c db = some db') : db'.sync_state = db.sync_state := by
  unfold processComment at h
  cases h1 : Backup.upsert_comment tid c db with
  | none => rw [h1] at h; cases h
  | some db1 =>
    rw [h1] at h
    have e1 : db1.sync_state = db.sync_state :=
      upsertEntity_sync_state (.comments tid) c db db1 h1
    cases h2 : commentCid c with
    | none => rw [h2] at h; cases h3 : commentAttachments c <;> rw [h3] at h <;> cases h
    | some cid =>
      rw [h2] at h
      cases h3 : commentAttachments c with
      | none => rw [h3] at h; cases h
      | some atts =>
        rw [h3] at h
        have e2 := applyPage_sync_state _
          (fun a d d' hh =>
            upsertEntity_sync_state (.attachments tid (some cid) (dl tid cid a)) a d d' hh)
          atts db1 db' h
        exact e2.trans e1

theorem commentPagesLoop_sync_state (dl : DlFn) (tid : Int) :
    ∀ (pages : List CommentPage) (db db' : DB),
      commentPagesLoop dl tid pages db = some db' → db'.sync_state = db.sync_state := by
  intro pages
  induction pages with
  | nil => intro db db' h; cases h
  | cons p rest ih =>
    intro db db' h
    simp only [commentPagesLoop] at h
    split at h
    · cases h
    · rename_i db1 h1
      have e1 : db1.sync_state = db.sync_state :=
        applyPage_sync_state _ (processComment_sync_state dl tid) p.comments db db1 h1
      split at h
      · exact (ih db1 db' h).trans e1
      · injection h with h
        rw [← h]; exact e1

theorem processTicket_sync_state (cfg : Cfg) (cfeeds : Int → List CommentPage) (dl : DlFn)
    (t : Entity) (db db' : DB) (h : processTicket cfg cfeeds dl t db = some db') :
    db'.sync_state = db.sync_state := by
  unfold processTicket at h
  split at h
  · cases h
  · split at h
    · split at h
      · simp only [Option.map_eq_some'] at h
        obtain ⟨tid, hid, h⟩ := h
        rw [← h]; rfl
      · injection h with h
        rw [← h]
    · split at h
      · cases h
      · rename_i tid hid
        split at h
        · cases h
        · rename_i db1 h1
          have e1 : db1.sync_state = db.sync_state :=
            upsertEntity_sync_state .tickets t db db1 h1
          split at h
          · injection h with h
            rw [← h]; exact e1
          · exact (commentPagesLoop_sync_state dl tid (cfeeds tid) db1 db' h).trans e1

theorem get_cursor_set_same (res tok : String) (db : DB) :
    get_cursor_val (set_cursor_val res tok db) res = some tok := by
  show (lookupK (fun r : CursorRow => r.resource) res
    (upsertRow (fun r : CursorRow => r.resource) ⟨res, tok⟩ db.sync_state)).map
      (fun r => r.cursor_token) = some tok
  rw [lookupK_upsertRow]
  simp

theorem get_cursor_setCursorIfTok (res : String) (ac : Option String) (db : DB) :
    get_cursor_val (setCursorIfTok res ac db) res =
      oelse (tokTruthy ac) (get_cursor_val db res) := by
  cases ac with
  | none => rfl
  | some t =>
    by_cases ht : t = "" <;>
      simp [setCursorIfTok, tokTruthy, ht, oelse, get_cursor_set_same]

theorem oelse_none_right {α : Type} (a : Option α) : oelse a none = a := by
  cases a <;> rfl

theorem lastTokU_acc : ∀ (pages : List UserPage) (acc : Option String),
    lastTokU pages acc = oelse (lastTokU pages none) acc := by
  intro pages
  induction pages with
  | nil => intro acc; rfl
  | cons p rest ih =>
    intro acc
    simp only [lastTokU]
    by_cases he : p.end_of_stream = true
    · rw [if_pos he, if_pos he, oelse_assoc, oelse_none_left]
    · by_cases hn : p.has_next = true
      · rw [if_neg he, if_neg he, if_pos hn, if_pos hn,
            ih (oelse (tokTruthy p.after_cursor) acc),
            ih (oelse (tokTruthy p.after_cursor) none), oelse_assoc, oelse_assoc,
            oelse_none_left]
      · rw [if_neg he, if_neg he, if_neg hn, if_neg hn, oelse_assoc, oelse_none_left]

theorem lastTokT_acc : ∀ (pages : List TicketPage) (acc : Option String),
    lastTokT pages acc = oelse (lastTokT pages none) acc := by
  intro pages
  induction pages with
  | nil => intro acc; rfl
  | cons p rest ih =>
    intro acc
    simp only [lastTokT]
    by_cases he : p.end_of_stream = true
    · rw [if_pos he, if_pos he, oelse_assoc, oelse_none_left]
    · rw [if_neg he, if_neg he,
          ih (oelse (tokTruthy p.after_cursor) acc),
          ih (oelse (tokTruthy p.after_cursor) none), oelse_assoc, oelse_assoc,
          oelse_none_left]

theorem syncUsersLoop_cursor : ∀ (pages : List UserPage) (db db' : DB),
    syncUsersLoop pages db = some db' →
    get_cursor_val db' "users" = oelse (lastTokU pages none) (get_cursor_val db "users") := by
  intro pages
  induction pages with
  | nil => intro db db' h; cases h
  | cons p rest ih =>
    intro db db' h
    simp only [syncUsersLoop] at h
    split at h
    · cases h
    · rename_i db1 h1
      have e1 : db1.sync_state = db.sync_state :=
        applyPage_sync_state _ (fun e d d' hh => upsertEntity_sync_state .users e d d' hh)
          p.users db db1 h1
      have ec2 : get_cursor_val (setCursorIfTok "users" p.after_cursor db1) "users" =
          oelse (tokTruthy p.after_cursor) (get_cursor_val db "users") := by
        rw [get_cursor_setCursorIfTok]
        unfold get_cursor_val
        rw [e1]
      simp only [lastTokU]
      split at h
      · rename_i he
        injection h with h
        rw [← h, ec2, if_pos he, oelse_assoc, oelse_none_left]
      · rename_i he
        split at h
        · rename_i hn
          rw [ih _ _ h, ec2, if_neg he, if_pos hn,
              lastTokU_acc rest (oelse (tokTruthy p.after_cursor) none),
              oelse_assoc, oelse_assoc, oelse_none_left]
        · rename_i hn
          injection h with h
          rw [← h, ec2, if_neg he, if_neg hn, oelse_assoc, oelse_none_left]

theorem syncTicketsLoop_cursor (cfg : Cfg) (cfeeds : Int → List CommentPage) (dl : DlFn) :
    ∀ (pages : List TicketPage) (db db' : DB),
    syncTicketsLoop cfg cfeeds dl pages db = some db' →
    get_cursor_val db' "tickets" =
      oelse (lastTokT pages none) (get_cursor_val db "tickets") := by
  intro pages
  induction pages with
  | nil => intro db db' h; cases h
  | cons p rest ih =>
    intro db db' h
    simp only [syncTicketsLoop] at h
    split at h
    · cases h
    · rename_i db1 h1
      have e1 : db1.sync_state = db.sync_state :=
        applyPage_sync_state _ (processTicket_sync_state cfg cfeeds dl) p.tickets db db1 h1
      have ec2 : get_cursor_val (setCursorIfTok "tickets" p.after_cursor db1) "tickets" =
          oelse (tokTruthy p.after_cursor) (get_cursor_val db "tickets") := by
        rw [get_cursor_setCursorIfTok]
        unfold get_cursor_val
        rw [e1]
      simp only [lastTokT]
      split at h
      · rename_i he
        injection h with h
        rw [← h, ec2, if_pos he, oelse_assoc, oelse_none_left]
      · rename_i he
        rw [ih _ _ h, ec2, if_neg he,
            lastTokT_acc rest (oelse (tokTruthy p.after_cursor) none),
            oelse_assoc, oelse_assoc, oelse_none_left]

/-- C6: checkpoint-per-page cursor monotonicity for the
cursor-bootstrapped streaming resources. After a users or tickets run
over N successfully processed pages, the stored cursor for that resource
equals the advancement token of the last processed page that carried a
truthy one — in particular, when the last page carries a token, the
stored cursor equals exactly that token. -/
theorem cursor_checkpoint_per_page :
    (∀ (pages : List UserPage) (db db' : DB) (t : String),
      syncUsersLoop pages db = some db' → lastTokU pages none = some t →
      get_cursor_val db' "users" = some t) ∧
    (∀ (cfg : Cfg) (cfeeds : Int → List CommentPage) (dl : DlFn)
        (pages : List TicketPage) (db db' : DB) (t : String),
      syncTicketsLoop cfg cfeeds dl pages db = some db' → lastTokT pages none = some t →
      get_cursor_val db' "tickets" = some t) := by
  constructor
  · intro pages db db' t h hlast
    rw [syncUsersLoop_cursor pages db db' h, hlast]
    rfl
  · intro cfg cfeeds dl pages db db' t h hlast
    rw [syncTicketsLoop_cursor cfg cfeeds dl pages db db' h, hlast]
    rfl

/-- Witness for C6 at concrete inputs: a two-page users feed whose pages
carry tokens "tokA" then "tokB" leaves cursor "tokB"; a one-page tickets
feed carrying "tokC" leaves cursor "tokC". -/
theorem cursor_checkpoint_per_page_witness :
    get_cursor_val ((syncUsersLoop
        [⟨[sampleUser], some "tokA", false, true⟩, ⟨[], some "tokB", true, false⟩]
        emptyDB).getD emptyDB) "users" = some "tokB" ∧
    get_cursor_val ((syncTicketsLoop ⟨false, false, false⟩ (fun _ => [⟨[], false⟩])
        (fun _ _ _ => none) [⟨[], some "tokC", true⟩] emptyDB).getD emptyDB) "tickets" =
      some "tokC" := by
  constructor
  · exact cursor_checkpoint_per_page.1
      [⟨[sampleUser], some "tokA", false, true⟩, ⟨[], some "tokB", true, false⟩]
      emptyDB _ "tokB" rfl rfl
  · exact cursor_checkpoint_per_page.2 ⟨false, false, false⟩ (fun _ => [⟨[], false⟩])
      (fun _ _ _ => none) [⟨[], some "tokC", true⟩] emptyDB _ "tokC" rfl rfl

/-! ### C4: organizations snapshot fallback -/

/-- C4 counterexample: an empty page also contributes zero newly-seen
unique ids, but the streak `if len(orgs) > 0 and added_unique == 0`
resets on it — a feed of three consecutive empty pages followed by a
terminal nonempty page completes incrementally (no snapshot switch) and
leaves the cursor at the page's end_time, not at now minus the margin. -/
theorem org_empty_pages_no_snapshot :
    orgPageEmpty.organizations = [] ∧
    (orgLoop 1000 snapFeed [orgPageEmpty, orgPageEmpty, orgPageEmpty, orgPageFinal]
        ⟨emptyDB, [], 0⟩).map (fun r => (r.1, get_cursor_val r.2 "organizations")) =
      some (false, some "77") ∧
    toString ((1000 : Int) - 60) ≠ "77" := by
  refine ⟨rfl, rfl, by decide⟩

theorem orgPageStep_streak (p : OrgPage) (s s1 : OrgState)
    (h : orgPageStep p s = some s1) (hne : p.organizations ≠ [])
    (hlen : s1.seen.length = s.seen.length) :
    s1.streak = s.streak + 1 := by
  unfold orgPageStep at h
  simp only [Option.map_eq_some'] at h
  obtain ⟨x, hx, h⟩ := h
  rw [← h] at hlen ⊢
  rw [if_pos ⟨hne, hlen⟩]

/-- C4 as amended: whenever three consecutive nonempty pages each
contribute zero newly-seen unique ids (the first two advertising a next
page, so the loop continues into the streak), the organizations
orchestrator switches to snapshot mode — the full paginated listing — and
after the snapshot completes the epoch cursor is reseeded to now minus a
60-second safety margin. Empty pages, although they also contribute zero
newly-seen ids, reset the streak (see the counterexample). -/
theorem org_snapshot_fallback (now : Int) (snapPages : List SnapPage)
    (p1 p2 p3 : OrgPage) (rest : List OrgPage) (s s1 s2 s3 : OrgState) (dbF : DB)
    (hstreak : s.streak = 0)
    (h1 : orgPageStep p1 s = some s1) (h2 : orgPageStep p2 s1 = some s2)
    (h3 : orgPageStep p3 s2 = some s3)
    (hne1 : p1.organizations ≠ []) (hne2 : p2.organizations ≠ [])
    (hne3 : p3.organizations ≠ [])
    (hlen1 : s1.seen.length = s.seen.length) (hlen2 : s2.seen.length = s1.seen.length)
    (hlen3 : s3.seen.length = s2.seen.length)
    (hnx1 : p1.next_page = true) (hnx2 : p2.next_page = true)
    (hsnap : snapshot_once now snapPages s3.db = some dbF) :
    orgLoop now snapPages (p1 :: p2 :: p3 :: rest) s = some (true, dbF) ∧
    get_cursor_val dbF "organizations" = some (toString (now - 60)) := by
  have e1 : s1.streak = 1 := by rw [orgPageStep_streak p1 s s1 h1 hne1 hlen1, hstreak]
  have e2 : s2.streak = 2 := by rw [orgPageStep_streak p2 s1 s2 h2 hne2 hlen2, e1]
  have e3 : s3.streak = 3 := by rw [orgPageStep_streak p3 s2 s3 h3 hne3 hlen3, e2]
  constructor
  · simp only [orgLoop, h1, e1]
    rw [if_neg (by norm_num : ¬ (1 : Nat) ≥ 3), if_pos hnx1]
    simp only [orgLoop, h2, e2]
    rw [if_neg (by norm_num : ¬ (2 : Nat) ≥ 3), if_pos hnx2]
    simp only [orgLoop, h3, e3]
    rw [if_pos (by norm_num : (3 : Nat) ≥ 3), hsnap]
    rfl
  · unfold snapshot_once at hsnap
    simp only [Option.map_eq_some'] at hsnap
    obtain ⟨d, hd, hsnap⟩ := hsnap
    rw [← hsnap]
    exact get_cursor_set_same "organizations" (toString (now - 60)) d

/-- Witness for C4-as-amended at a concrete input: three nonempty pages
repeating the already-seen organization id 7 trigger the snapshot, after
which the cursor reads 1000 - 60. -/
theorem org_snapshot_fallback_witness :
    orgLoop 1000 snapFeed [orgPageDup, orgPageDup, orgPageDup] orgDupState =
      some (true, orgSnapDB) ∧
    get_cursor_val orgSnapDB "organizations" = some (toString ((1000 : Int) - 60)) :=
  org_snapshot_fallback 1000 snapFeed orgPageDup orgPageDup orgPageDup []
    orgDupState orgDupS1 orgDupS2 orgDupS3 orgSnapDB rfl rfl rfl rfl
    (by decide) (by decide) (by decide) rfl rfl rfl rfl rfl rfl

/-! ### C5: restore loads ordered, deduplicates, replays, skips bad rows -/

theorem rawLe_total (a b : RawRow) : Restore.rawLe a b = true ∨ Restore.rawLe b a = true := by
  rcases ua : a.updated_at with - | x <;> rcases ub : b.updated_at with - | y <;>
    simp only [Restore.rawLe, ua, ub, decide_eq_true_eq, Bool.false_eq_true, or_true,
      true_or, false_or, or_false]
  · exact Int.le_total b.entity_id a.entity_id
  · by_cases hxy : x = y
    · subst hxy
      rw [if_pos rfl, if_pos rfl]
      simp only [decide_eq_true_eq]
      exact Int.le_total b.entity_id a.entity_id
    · rw [if_neg hxy, if_neg (fun he => hxy he.symm)]
      simp only [decide_eq_true_eq]
      rcases lt_or_gt_of_ne hxy with h | h
      · right; exact h
      · left; exact h

theorem rawLe_trans (a b c : RawRow) (hab : Restore.rawLe a b = true)
    (hbc : Restore.rawLe b c = true) : Restore.rawLe a c = true := by
  rcases ua : a.updated_at with - | x <;> rcases ub : b.updated_at with - | y <;>
    rcases uc : c.updated_at with - | z <;>
    simp only [Restore.rawLe, ua, ub, uc, decide_eq_true_eq, Bool.false_eq_true]
      at hab hbc ⊢
  · exact le_trans hbc hab
  · by_cases hxy : x = y
    · subst hxy
      rw [if_pos rfl] at hab
      simp only [decide_eq_true_eq] at hab
      by_cases hxz : x = z
      · subst hxz
        rw [if_pos rfl] at hbc ⊢
        simp only [decide_eq_true_eq] at hbc ⊢
        exact le_trans hbc hab
      · rw [if_neg hxz] at hbc ⊢
        exact hbc
    · rw [if_neg hxy] at hab
      simp only [decide_eq_true_eq] at hab
      by_cases hyz : y = z
      · subst hyz
        rw [if_neg hxy]
        simp only [decide_eq_true_eq]
        exact hab
      · rw [if_neg hyz] at hbc
        simp only [decide_eq_true_eq] at hbc
        have hzx : z < x := lt_trans hbc hab
        rw [if_neg (fun he : x = z => absurd (he ▸ hzx) (lt_irrefl x))]
        simp only [decide_eq_true_eq]
        exact hzx

theorem insertLe_perm {α : Type} (le : α → α → Bool) (a : α) :
    ∀ l : List α, (Restore.insertLe le a l).Perm (a :: l) := by
  intro l
  induction l with
  | nil => exact List.Perm.refl _
  | cons b bs ih =>
    unfold Restore.insertLe
    by_cases hle : le a b = true
    · rw [if_pos hle]
    · rw [if_neg hle]
      exact (List.Perm.cons b ih).trans (List.Perm.swap a b bs)

theorem sortLe_perm {α : Type} (le : α → α → Bool) :
    ∀ l : List α, (Restore.sortLe le l).Perm l := by
  intro l
  induction l with
  | nil => exact List.Perm.refl _
  | cons a xs ih =>
    exact (insertLe_perm le a _).trans (List.Perm.cons a ih)

theorem mem_insertLe {α : Type} (le : α → α → Bool) (a x : α) (l : List α)
    (h : x ∈ Restore.insertLe le a l) : x = a ∨ x ∈ l := by
  have := (insertLe_perm le a l).mem_iff.mp h
  simpa using this

theorem insertLe_pairwise {α : Type} (le : α → α → Bool)
    (htot : ∀ x y, le x y = true ∨ le y x = true)
    (htrans : ∀ x y z, le x y = true → le y z = true → le x z = true) (a : α) :
    ∀ l : List α, l.Pairwise (fun x y => le x y = true) →
      (Restore.insertLe le a l).Pairwise (fun x y => le x y = true) := by
  intro l
  induction l with
  | nil => intro _; simp [Restore.insertLe]
  | cons b bs ih =>
    intro h
    rcases List.pairwise_cons.mp h with ⟨hb, hbs⟩
    unfold Restore.insertLe
    by_cases hle : le a b = true
    · rw [if_pos hle]
      refine List.pairwise_cons.mpr ⟨?_, h⟩
      intro x hx
      rcases List.mem_cons.mp hx with rfl | hx
      · exact hle
      · exact htrans a b x hle (hb x hx)
    · rw [if_neg hle]
      refine List.pairwise_cons.mpr ⟨?_, ih hbs⟩
      intro x hx
      rcases mem_insertLe le a x bs hx with rfl | hx
      · rcases htot x b with h1 | h1
        · exact absurd h1 hle
        · exact h1
      · exact hb x hx

theorem sortLe_pairwise {α : Type} (le : α → α → Bool)
    (htot : ∀ x y, le x y = true ∨ le y x = true)
    (htrans : ∀ x y z, le x y = true → le y z = true → le x z = true) :
    ∀ l : List α, (Restore.sortLe le l).Pairwise (fun x y => le x y = true) := by
  intro l
  induction l with
  | nil => simp [Restore.sortLe]
  | cons a xs ih => exact insertLe_pairwise le htot htrans a _ ih

theorem restoreRows_dedup (jp : String → Option Json) (fn : Json → DB → Option DB)
    (dry : Bool)
    (hfn : ∀ (p : Json) (db1 db2 : DB), (fn p db1).isSome → (fn p db2).isSome) :
    ∀ (rows : List Restore.RestRow) (s : Restore.RestState),
      (∀ r ∈ rows, ∃ p, Restore.coercePayload jp r.payload_json = some p ∧
        (dry = true ∨ ∃ db0, (fn p db0).isSome = true)) →
      Restore.restoreRows jp fn dry rows s =
        Restore.restoreRows jp fn dry (dedupAux s.seen rows) s := by
  intro rows
  induction rows with
  | nil => intro s _; rfl
  | cons r rs ih =>
    intro s h
    by_cases hseen : r.entity_id ∈ s.seen
    · have hstep : Restore.restoreStep jp fn dry s r = s := by
        unfold Restore.restoreStep
        rw [if_pos hseen]
      simp only [dedupAux, if_pos hseen, Restore.restoreRows, hstep]
      exact ih s (fun q hq => h q (List.mem_cons_of_mem r hq))
    · obtain ⟨p, hp, hok⟩ := h r (List.mem_cons_self r rs)
      have htail : ∀ q ∈ rs, ∃ pl, Restore.coercePayload jp q.payload_json = some pl ∧
          (dry = true ∨ ∃ db0, (fn pl db0).isSome = true) :=
        fun q hq => h q (List.mem_cons_of_mem r hq)
      cases dry with
      | true =>
        have hstep : Restore.restoreStep jp fn true s r =
            ⟨s.db, r.entity_id :: s.seen, s.restored + 1⟩ := by
          unfold Restore.restoreStep
          rw [if_neg hseen, hp]
          rfl
        simp only [dedupAux, if_neg hseen, Restore.restoreRows, hstep]
        exact ih ⟨s.db, r.entity_id :: s.seen, s.restored + 1⟩ htail
      | false =>
        rcases hok with hok | ⟨db0, hok⟩
        · cases hok
        · have hsome : (fn p s.db).isSome = true := hfn p db0 s.db hok
          obtain ⟨db1, hdb1⟩ := Option.isSome_iff_exists.mp hsome
          have hstep : Restore.restoreStep jp fn false s r =
              ⟨db1, r.entity_id :: s.seen, s.restored + 1⟩ := by
            unfold Restore.restoreStep
            rw [if_neg hseen, hp]
            simp only [Bool.false_eq_true, if_false, hdb1]
          simp only [dedupAux, if_neg hseen, Restore.restoreRows, hstep]
          exact ih ⟨db1, r.entity_id :: s.seen, s.restored + 1⟩ htail

theorem runRestorer_isSome_indep :
    ∀ p ∈ Restore.RESTORERS, ∀ (j : Json) (db1 db2 : DB),
      (p.2 j db1).isSome = true → (p.2 j db2).isSome = true := by
  intro p hp j db1 db2 h
  simp only [Restore.RESTORERS, List.mem_cons, List.not_mem_nil, or_false] at hp
  rcases hp with rfl | rfl | rfl | rfl | rfl | rfl | rfl <;>
    (cases j with
     | obj kvs =>
       simp only [Restore.runRestorer, Restore.upsert_user, Restore.upsert_org,
         Restore.upsert_ticket, Restore.upsert_view, Restore.upsert_trigger,
         Restore.upsert_trigger_category, Restore.upsertMacro, Option.isSome_map'] at h ⊢
       exact h
     | null => cases h
     | bool b => cases h
     | num n => cases h
     | str s => cases h
     | arr xs => cases h)

/-- C5: per resource, the restore engine loads the raw snapshots ordered
by source update time descending with unset time sorting last and entity
id descending as tie-break (the loaded list is sorted by that order and
is a permutation of the resource's raw rows; with no limit the whole
ordered list is loaded); the replay loop deduplicates by id keeping only
the first occurrence (replaying a row list equals replaying its
first-occurrence dedup, whenever the rows it replays parse and apply);
a row whose payload fails to parse is skipped without aborting the batch
(the step leaves the state unchanged); and the projection functions the
engine replays through are the same functions the Writer uses. -/
theorem restore_load_dedup_replay :
    (∀ (db : DB) (res : String),
      (Restore.rawRowsSorted db res).Pairwise (fun a b => Restore.rawLe a b = true)) ∧
    (∀ (db : DB) (res : String),
      (Restore.rawRowsSorted db res).Perm
        (db.raw_snapshots.filter (fun r => r.resource = res))) ∧
    (∀ (db : DB) (res : String) (offset : Nat),
      Restore.load_raw_rows db res none offset =
        (Restore.rawRowsSorted db res).map (fun r => ⟨r.entity_id, r.payload_json⟩)) ∧
    (∀ (jp : String → Option Json) (fn : Json → DB → Option DB) (dry : Bool)
        (s : Restore.RestState) (r : Restore.RestRow),
      r.entity_id ∉ s.seen → Restore.coercePayload jp r.payload_json = none →
      Restore.restoreStep jp fn dry s r = s) ∧
    (∀ (jp : String → Option Json) (fn : Json → DB → Option DB) (dry : Bool),
      (∀ (p : Json) (db1 db2 : DB), (fn p db1).isSome → (fn p db2).isSome) →
      ∀ (rows : List Restore.RestRow) (s : Restore.RestState),
        (∀ r ∈ rows, ∃ p, Restore.coercePayload jp r.payload_json = some p ∧
          (dry = true ∨ ∃ db0, (fn p db0).isSome = true)) →
        Restore.restoreRows jp fn dry rows s =
          Restore.restoreRows jp fn dry (dedupAux s.seen rows) s) ∧
    (Restore.upsert_user = Backup.upsert_user ∧
     Restore.upsert_org = Backup.upsert_org ∧
     Restore.upsert_ticket = Backup.upsert_ticket ∧
     Restore.upsert_view = Backup.upsert_view ∧
     Restore.upsert_trigger = Backup.upsert_trigger ∧
     Restore.upsert_trigger_category = Backup.upsert_trigger_category ∧
     Restore.upsertMacro = Backup.upsertMacro) := by
  refine ⟨?_, ?_, ?_, ?_, ?_, rfl, rfl, rfl, rfl, rfl, rfl, rfl⟩
  · intro db res
    exact sortLe_pairwise Restore.rawLe rawLe_total rawLe_trans _
  · intro db res
    exact sortLe_perm Restore.rawLe _
  · intro db res offset
    rfl
  · intro jp fn dry s r hseen hparse
    unfold Restore.restoreStep
    rw [if_neg hseen, hparse]
  · exact restoreRows_dedup

/-- Witness for C5 at concrete inputs: the three sample raw rows load in
the order newest, oldest, null-timestamp; a duplicate-id two-row replay
equals the replay of its dedup; a string payload that fails to parse is
skipped. -/
theorem restore_load_dedup_replay_witness :
    (Restore.rawRowsSorted dbRaws "users").Pairwise
      (fun a b => Restore.rawLe a b = true) ∧
    Restore.restoreStep (fun _ => none) (Restore.runRestorer Restore.upsert_user) false
        ⟨emptyDB, [], 0⟩ ⟨5, Json.str "not json"⟩ = ⟨emptyDB, [], 0⟩ ∧
    Restore.restoreRows (fun _ => none) (Restore.runRestorer Restore.upsert_user) false
        [⟨1, Json.obj sampleUser⟩, ⟨1, Json.obj sampleUser2⟩] ⟨emptyDB, [], 0⟩ =
      Restore.restoreRows (fun _ => none) (Restore.runRestorer Restore.upsert_user) false
        (dedupAux [] [⟨1, Json.obj sampleUser⟩, ⟨1, Json.obj sampleUser2⟩])
        ⟨emptyDB, [], 0⟩ := by
  refine ⟨restore_load_dedup_replay.1 dbRaws "users", ?_, ?_⟩
  · exact restore_load_dedup_replay.2.2.2.1 (fun _ => none)
      (Restore.runRestorer Restore.upsert_user) false ⟨emptyDB, [], 0⟩
      ⟨5, Json.str "not json"⟩ (by decide) rfl
  · exact restore_load_dedup_replay.2.2.2.2.1 (fun _ => none)
      (Restore.runRestorer Restore.upsert_user) false
      (fun p d1 d2 h => runRestorer_isSome_indep
        ("users", Restore.runRestorer Restore.upsert_user)
        (List.mem_cons_self _ _) p d1 d2 h)
      [⟨1, Json.obj sampleUser⟩, ⟨1, Json.obj sampleUser2⟩] ⟨emptyDB, [], 0⟩
      (fun r hr => by
        rcases List.mem_cons.mp hr with rfl | hr
        · exact ⟨Json.obj sampleUser, rfl, Or.inr ⟨emptyDB, by decide⟩⟩
        · rcases List.mem_cons.mp hr with rfl | hr
          · exact ⟨Json.obj sampleUser2, rfl, Or.inr ⟨emptyDB, by decide⟩⟩
          · cases hr)

end ZSpec
